import Mathlib

/-!
# Zilliqa validator: cosignature check, directory-block walk, transaction checks

A shallow embedding of `src/libValidator/Validator.cpp`.

* C++ containers (`vector`, `deque`) are lists; `at(i)` is a bounds-checked read that
  throws `std::out_of_range`.
* `unsigned int` counters wrap modulo `2^32`, `uint64_t` counters modulo `2^64`.
* The collaborators that live outside the file (quorum function, key aggregation,
  Schnorr verification, serialisers, committee updates of `Node`) are fields of `Env`.
* Every collaborator call is recorded, in program order, in a list of `Call`s, so that
  statements of the kind "is called exactly n times" or "is not consulted" can be stated.
* Logging (`LOG_GENERAL`, `LOG_MARKER`) has no effect on results and is left out.
-/

namespace Zilliqa

/-! ## Data model -/

/-- Public key `PubKey`, kept as an uninterpreted identifier. -/
abbrev PubKey := Nat

/-- Network address `Peer`, kept as an uninterpreted identifier. -/
abbrev Peer := Nat

/-- Schnorr `Signature` (used for both CS1 and CS2), kept as an uninterpreted identifier. -/
abbrev Signature := Nat

/-- Byte buffer `vector<unsigned char>`. -/
abbrev Bytes := List Nat

/-- The DS committee `deque<pair<PubKey, Peer>>`. -/
abbrev DSComm := List (PubKey × Peer)

/-- One shard: a sequence of members, each a tuple that starts with the public key and the
peer (the third component stands for the remaining tuple entry). -/
abbrev Shard := List (PubKey × Peer × Nat)

/-- The sharding structure `DequeOfShard`. -/
abbrev DequeOfShard := List Shard

/-- Width of `unsigned int` / `uint32_t`. -/
abbrev UINT32 : Nat := 2 ^ 32

/-- Width of `uint64_t`. -/
abbrev UINT64 : Nat := 2 ^ 64

/-- Header of a DS block: the block number and the remaining, uninterpreted, fields. -/
structure DSBlockHeader where
  blockNum : Nat
  other : Bytes
  deriving DecidableEq

/-- Header of a view-change block. -/
structure VCBlockHeader where
  vieWChangeDSEpochNo : Nat
  viewChangeCounter : Nat
  other : Bytes
  deriving DecidableEq

/-- Header of a fallback block. -/
structure FallbackBlockHeader where
  fallbackDSEpochNo : Nat
  shardId : Nat
  leaderPubKey : PubKey
  leaderNetworkInfo : Peer
  other : Bytes
  deriving DecidableEq

/-- What `CheckBlockCosignature` reads of a block: header, CS1, B1, CS2, B2. -/
structure BlockBase (Header : Type) where
  header : Header
  CS1 : Signature
  B1 : List Bool
  CS2 : Signature
  B2 : List Bool
  deriving DecidableEq

abbrev DSBlock := BlockBase DSBlockHeader
abbrev VCBlock := BlockBase VCBlockHeader
abbrev FallbackBlock := BlockBase FallbackBlockHeader

/-- A fallback block together with the sharding structure it is checked against. -/
structure FallbackBlockWShardingStructure where
  m_fallbackblock : FallbackBlock
  m_shards : DequeOfShard
  deriving DecidableEq

/-- The input element type `boost::variant<DSBlock, VCBlock, FallbackBlockWShardingStructure>`. -/
inductive DirBlock where
  | ds (b : DSBlock)
  | vc (b : VCBlock)
  | fb (b : FallbackBlockWShardingStructure)
  deriving DecidableEq

/-- The `typeid`s the walk compares against. -/
inductive TypeInfo where
  | DSBlock
  | VCBlock
  | FallbackBlockWShardingStructure
  deriving DecidableEq

/-- The member `type()` of the variant: the `typeid` of the alternative it holds. -/
def DirBlock.type : DirBlock → TypeInfo
  | .ds _ => TypeInfo.DSBlock
  | .vc _ => TypeInfo.VCBlock
  | .fb _ => TypeInfo.FallbackBlockWShardingStructure

/-- C++ exceptions that can leave the functions modelled here. -/
inductive Exception where
  | out_of_range
  | bad_get
  deriving DecidableEq

/-- Result of a C++ call: a returned value or a thrown exception. -/
inductive Result (α : Type) where
  | ret (a : α)
  | throw (e : Exception)
  deriving DecidableEq

/-- One recorded call of a collaborator, with the arguments it was given. -/
inductive Call where
  | NumForConsensus (shardSize : Nat)
  | AggregatePubKeys (keys : List PubKey)
  | Verify (message : Bytes) (sig : Signature) (key : PubKey)
  | UpdateDSCommiteeComposition (dsComm : DSComm)
  | UpdateDSCommiteeCompositionAfterVC (dsComm : DSComm)
  | UpdateDSCommitteeAfterFallback (shard_id : Nat) (leaderPubKey : PubKey)
      (leaderNetworkInfo : Peer) (dsComm : DSComm) (shards : DequeOfShard)
  deriving DecidableEq

/-- The collaborators of the validator. None of them is defined in the sources at hand; each
is a parameter. The three committee updates of `Node` take the committee by reference and
change it in place: here they return the changed committee. -/
structure Env where
  NumForConsensus : Nat → Nat
  AggregatePubKeys : List PubKey → Option PubKey
  Verify : Bytes → Signature → PubKey → Bool
  SerializeDSBlockHeader : DSBlockHeader → Bytes
  SerializeVCBlockHeader : VCBlockHeader → Bytes
  SerializeFallbackBlockHeader : FallbackBlockHeader → Bytes
  SerializeSignature : Signature → Bytes
  BitVectorBytes : List Bool → Bytes
  UpdateDSCommiteeComposition : DSComm → DSComm
  UpdateDSCommiteeCompositionAfterVC : DSComm → DSComm
  UpdateDSCommitteeAfterFallback : Nat → PubKey → Peer → DSComm → DequeOfShard → DSComm

/-! ## `Validator::CheckBlockCosignature` -/

/-- Modelled from the spec: the bodies of `Serialize(dst, offset)` (headers, CS1) and of
`BitVector::SetBitVector(dst, offset, bits)` are not in the sources. Each writes the bytes of
its object into `dst` starting at `offset`: the buffer grows when the write runs past its end
and bytes after the written range stay. -/
def writeAt (dst : Bytes) (offset : Nat) (src : Bytes) : Bytes :=
  dst.take offset ++ List.replicate (offset - dst.length) 0 ++ src ++
    dst.drop (offset + src.length)

/-- The key-selection loop `for (auto const& kv : commKeys)` of `CheckBlockCosignature`:
`B2.at(index)` is bounds-checked, `index` and `count` are `unsigned int`. Returns the selected
keys and the final `count`. -/
def selectKeys {κ : Type} (getPubKey : κ → PubKey) (B2 : List Bool) :
    List κ → Nat → Nat → List PubKey → Result (List PubKey × Nat)
  | [], _, count, keys => .ret (keys, count)
  | kv :: rest, index, count, keys =>
    match B2[index]? with
    | none => .throw .out_of_range
    | some true =>
      selectKeys getPubKey B2 rest ((index + 1) % UINT32) ((count + 1) % UINT32)
        (keys ++ [getPubKey kv])
    | some false =>
      selectKeys getPubKey B2 rest ((index + 1) % UINT32) count keys

/-- The buffer `serializedHeader` handed to the signature check: header at offset 0, then CS1
at the end of the buffer, then the B1 bit vector at the end of the buffer. -/
def signedBuffer {Header : Type} (env : Env) (serializeHeader : Header → Bytes)
    (block : BlockBase Header) : Bytes :=
  let serializedHeader : Bytes := []
  let serializedHeader := writeAt serializedHeader 0 (serializeHeader block.header)
  let serializedHeader :=
    writeAt serializedHeader serializedHeader.length (env.SerializeSignature block.CS1)
  writeAt serializedHeader serializedHeader.length (env.BitVectorBytes block.B1)

/-- What a call of `CheckBlockCosignature` gives back: its value and the collaborator calls it
made, in order. -/
structure Outcome where
  value : Result Bool
  calls : List Call
  deriving DecidableEq

/-- The template `Validator::CheckBlockCosignature(block, commKeys)`. `getPubKey` is
`get<PubKey>(kv)` on the container element, `serializeHeader` the `Serialize` of the header
type. -/
def CheckBlockCosignature {κ Header : Type} (env : Env) (getPubKey : κ → PubKey)
    (serializeHeader : Header → Bytes) (block : BlockBase Header) (commKeys : List κ) :
    Outcome :=
  let B2 := block.B2
  if commKeys.length ≠ B2.length then
    ⟨.ret false, []⟩
  else
    match selectKeys getPubKey B2 commKeys 0 0 [] with
    | .throw e => ⟨.throw e, []⟩
    | .ret (keys, count) =>
      if count ≠ env.NumForConsensus B2.length then
        ⟨.ret false, [.NumForConsensus B2.length]⟩
      else
        match env.AggregatePubKeys keys with
        | none => ⟨.ret false, [.NumForConsensus B2.length, .AggregatePubKeys keys]⟩
        | some aggregatedKey =>
          let serializedHeader := signedBuffer env serializeHeader block
          let message := (serializedHeader.drop 0).take serializedHeader.length
          if !env.Verify message block.CS2 aggregatedKey then
            ⟨.ret false, [.NumForConsensus B2.length, .AggregatePubKeys keys,
              .Verify message block.CS2 aggregatedKey]⟩
          else
            ⟨.ret true, [.NumForConsensus B2.length, .AggregatePubKeys keys,
              .Verify message block.CS2 aggregatedKey]⟩

/-! ## `Validator::CheckDirBlocks` -/

/-- The locals of `CheckDirBlocks`, and the collaborator calls made so far. -/
structure WalkState where
  mutable_ds_comm : DSComm
  prevdsblocknum : Nat
  totalIndex : Nat
  calls : List Call
  deriving DecidableEq

/-- The rotation loop of the VC branch: `newCandidateLeader` calls of
`UpdateDSCommiteeCompositionAfterVC`, one after the other, on the working committee. -/
def vcLoop (env : Env) : Nat → DSComm → List Call → DSComm × List Call
  | 0, comm, calls => (comm, calls)
  | n + 1, comm, calls =>
    vcLoop env n (env.UpdateDSCommiteeCompositionAfterVC comm)
      (calls ++ [.UpdateDSCommiteeCompositionAfterVC comm])

/-- The DS-block branch of the loop body. `none` in the first component: go on with the next
block; `some r`: the function is left with `r`. -/
def dsBranch (env : Env) (dsblock : DSBlock) (s : WalkState) :
    Option (Result Bool) × WalkState :=
  if dsblock.header.blockNum ≠ (s.prevdsblocknum + 1) % UINT64 then
    (some (.ret false), s)
  else
    let r := CheckBlockCosignature env Prod.fst env.SerializeDSBlockHeader dsblock
      s.mutable_ds_comm
    match r.value with
    | .throw e => (some (.throw e), { s with calls := s.calls ++ r.calls })
    | .ret false => (some (.ret false), { s with calls := s.calls ++ r.calls })
    | .ret true =>
      (none,
        { mutable_ds_comm := env.UpdateDSCommiteeComposition s.mutable_ds_comm
          prevdsblocknum := (s.prevdsblocknum + 1) % UINT64
          totalIndex := (s.totalIndex + 1) % UINT64
          calls := s.calls ++ r.calls ++ [.UpdateDSCommiteeComposition s.mutable_ds_comm] })

/-- The VC-block branch of the loop body. -/
def vcBranch (env : Env) (vcblock : VCBlock) (s : WalkState) :
    Option (Result Bool) × WalkState :=
  if vcblock.header.vieWChangeDSEpochNo ≠ s.prevdsblocknum then
    (some (.ret false), s)
  else
    let r := CheckBlockCosignature env Prod.fst env.SerializeVCBlockHeader vcblock
      s.mutable_ds_comm
    match r.value with
    | .throw e => (some (.throw e), { s with calls := s.calls ++ r.calls })
    | .ret false => (some (.ret false), { s with calls := s.calls ++ r.calls })
    | .ret true =>
      let newCandidateLeader := vcblock.header.viewChangeCounter
      let after := vcLoop env newCandidateLeader s.mutable_ds_comm (s.calls ++ r.calls)
      (none,
        { mutable_ds_comm := after.1
          prevdsblocknum := s.prevdsblocknum
          totalIndex := (s.totalIndex + 1) % UINT64
          calls := after.2 })

/-- The fallback-block branch of the loop body; `shards.at(shard_id)` is bounds-checked. -/
def fbBranch (env : Env) (fbs : FallbackBlockWShardingStructure) (s : WalkState) :
    Option (Result Bool) × WalkState :=
  let fallbackblock := fbs.m_fallbackblock
  let shards := fbs.m_shards
  if fallbackblock.header.fallbackDSEpochNo ≠ s.prevdsblocknum then
    (some (.ret false), s)
  else
    let shard_id := fallbackblock.header.shardId
    match shards[shard_id]? with
    | none => (some (.throw .out_of_range), s)
    | some shard =>
      let r := CheckBlockCosignature env (fun kv => kv.1) env.SerializeFallbackBlockHeader
        fallbackblock shard
      match r.value with
      | .throw e => (some (.throw e), { s with calls := s.calls ++ r.calls })
      | .ret false => (some (.ret false), { s with calls := s.calls ++ r.calls })
      | .ret true =>
        let leaderPubKey := fallbackblock.header.leaderPubKey
        let leaderNetworkInfo := fallbackblock.header.leaderNetworkInfo
        (none,
          { mutable_ds_comm := env.UpdateDSCommitteeAfterFallback shard_id leaderPubKey
              leaderNetworkInfo s.mutable_ds_comm shards
            prevdsblocknum := s.prevdsblocknum
            totalIndex := (s.totalIndex + 1) % UINT64
            calls := s.calls ++ r.calls ++
              [.UpdateDSCommitteeAfterFallback shard_id leaderPubKey leaderNetworkInfo
                s.mutable_ds_comm shards] })

/-- The body of `for (const auto& dirBlock : dirBlocks)`: the `typeid` chain with its final
`else`, which only logs. `get<T>(dirBlock)` throws `bad_get` on another alternative. -/
def loopBody (env : Env) (dirBlock : DirBlock) (s : WalkState) :
    Option (Result Bool) × WalkState :=
  if TypeInfo.DSBlock = dirBlock.type then
    match dirBlock with
    | .ds dsblock => dsBranch env dsblock s
    | _ => (some (.throw .bad_get), s)
  else if TypeInfo.VCBlock = dirBlock.type then
    match dirBlock with
    | .vc vcblock => vcBranch env vcblock s
    | _ => (some (.throw .bad_get), s)
  else if TypeInfo.FallbackBlockWShardingStructure = dirBlock.type then
    match dirBlock with
    | .fb fbs => fbBranch env fbs s
    | _ => (some (.throw .bad_get), s)
  else
    (none, s)

/-- The loop of `CheckDirBlocks` from a given state of the locals, with `return true` after
the last block. -/
def walk (env : Env) : List DirBlock → WalkState → Result Bool × WalkState
  | [], s => (.ret true, s)
  | dirBlock :: rest, s =>
    match loopBody env dirBlock s with
    | (some r, s1) => (r, s1)
    | (none, s1) => walk env rest s1

/-- The locals at the start of `CheckDirBlocks`. -/
def initState (initDsComm : DSComm) : WalkState :=
  { mutable_ds_comm := initDsComm, prevdsblocknum := 0, totalIndex := 0, calls := [] }

/-- The run of `CheckDirBlocks`: its result together with the final locals and the calls. -/
def CheckDirBlocksRun (env : Env) (dirBlocks : List DirBlock) (initDsComm : DSComm) :
    Result Bool × WalkState :=
  walk env dirBlocks (initState initDsComm)

/-- The function `Validator::CheckDirBlocks(dirBlocks, initDsComm)`. -/
def CheckDirBlocks (env : Env) (dirBlocks : List DirBlock) (initDsComm : DSComm) :
    Result Bool :=
  (CheckDirBlocksRun env dirBlocks initDsComm).1

/-! ## Transaction checks: `VerifyTransaction`, `CheckCreatedTransaction`,
`CheckCreatedTransactionFromLookup` -/

/-- Account address `Address`, kept as an uninterpreted identifier. -/
abbrev Address := Nat

/-- The receipt `TransactionReceipt`, kept as an uninterpreted value. -/
abbrev TransactionReceipt := Nat

/-- What the validator reads of a `Transaction`: its getters, and `other` for the remaining
core fields. -/
structure Transaction where
  tranID : Nat
  senderPubKey : PubKey
  toAddr : Address
  amount : Nat
  data : Bytes
  signature : Signature
  other : Bytes
  deriving DecidableEq

/-- Modelled from the spec: `DirectoryService::Mode` is declared outside the sources. The
validator only compares the mode with `IDLE`; the other two values stand for the modes of
directory duty. -/
inductive Mode where
  | IDLE
  | PRIMARY_DS
  | BACKUP_DS
  deriving DecidableEq

/-- What the validator reads through `m_mediator`: the current epoch number, the shard id and
shard count of `m_node`, and the mode of `m_ds`. -/
structure Mediator where
  m_currentEpochNum : Nat
  shardId : Nat
  numShards : Nat
  m_mode : Mode
  deriving DecidableEq

/-- The account store `AccountStore::GetInstance()` as the validator meets it: two reads and
the temporary apply, which takes the receipt by reference and gives it back filled. -/
structure AccountStore where
  IsAccountExist : Address → Bool
  GetBalance : Address → Nat
  UpdateAccountsTemp : Nat → Nat → Bool → Transaction → TransactionReceipt →
    Bool × TransactionReceipt

/-- The remaining collaborators of the transaction checks, none defined in the sources. -/
structure TxEnv where
  LOOKUP_NODE_MODE : Bool
  NullAddress : Address
  GetAddressFromPublicKey : PubKey → Address
  GetShardIndex : Address → Nat → Nat
  SerializeCoreFields : Transaction → Bytes
  Verify : Bytes → Signature → PubKey → Bool

/-- One recorded call made by the transaction checks. The balance read that only feeds a log
line is part of logging and is not recorded. -/
inductive TxCall where
  | Verify (message : Bytes) (sig : Signature) (key : PubKey)
  | IsAccountExist (addr : Address)
  | GetBalance (addr : Address)
  | UpdateAccountsTemp (epoch : Nat) (numShards : Nat) (isDS : Bool) (tx : Transaction)
  deriving DecidableEq

/-- What a transaction check gives back: its value, the receipt (the argument passed by
reference, as it stands at the end) and the calls made, in order. -/
structure TxOutcome where
  value : Bool
  receipt : TransactionReceipt
  calls : List TxCall
  deriving DecidableEq

/-- The function `Validator::VerifyTransaction(tran)`: core fields serialised at offset 0 of an
empty buffer, checked against the signature under the sender key. -/
def VerifyTransaction (env : TxEnv) (tran : Transaction) : Bool :=
  let txnData : Bytes := []
  let txnData := writeAt txnData 0 (env.SerializeCoreFields tran)
  env.Verify txnData tran.signature tran.senderPubKey

/-- The `Verify` call that `VerifyTransaction` makes. -/
def VerifyTransactionCall (env : TxEnv) (tran : Transaction) : TxCall :=
  .Verify (writeAt [] 0 (env.SerializeCoreFields tran)) tran.signature tran.senderPubKey

/-- The function `Validator::CheckCreatedTransaction(tx, receipt)`. -/
def CheckCreatedTransaction (env : TxEnv) (m_mediator : Mediator) (store : AccountStore)
    (tx : Transaction) (receipt : TransactionReceipt) : TxOutcome :=
  if env.LOOKUP_NODE_MODE then
    ⟨true, receipt, []⟩
  else
    let senderPubKey := tx.senderPubKey
    let fromAddr := env.GetAddressFromPublicKey senderPubKey
    if !store.IsAccountExist fromAddr then
      ⟨false, receipt, [.IsAccountExist fromAddr]⟩
    else if store.GetBalance fromAddr < tx.amount then
      ⟨false, receipt, [.IsAccountExist fromAddr, .GetBalance fromAddr]⟩
    else
      let r := store.UpdateAccountsTemp m_mediator.m_currentEpochNum m_mediator.numShards
        (m_mediator.m_mode != Mode.IDLE) tx receipt
      ⟨r.1, r.2, [.IsAccountExist fromAddr, .GetBalance fromAddr,
        .UpdateAccountsTemp m_mediator.m_currentEpochNum m_mediator.numShards
          (m_mediator.m_mode != Mode.IDLE) tx]⟩

/-- Lines 125 to 150 of `CheckCreatedTransactionFromLookup`, reached when no shard check has
returned: signature, existence of the sender account, balance. -/
def lookupTail (env : TxEnv) (store : AccountStore) (tx : Transaction) (fromAddr : Address) :
    Bool × List TxCall :=
  if !VerifyTransaction env tx then
    (false, [VerifyTransactionCall env tx])
  else if !store.IsAccountExist fromAddr then
    (false, [VerifyTransactionCall env tx, .IsAccountExist fromAddr])
  else if store.GetBalance fromAddr < tx.amount then
    (false, [VerifyTransactionCall env tx, .IsAccountExist fromAddr, .GetBalance fromAddr])
  else
    (true, [VerifyTransactionCall env tx, .IsAccountExist fromAddr, .GetBalance fromAddr])

/-- The function `Validator::CheckCreatedTransactionFromLookup(tx)`: its value and the calls
made, in order. -/
def CheckCreatedTransactionFromLookup (env : TxEnv) (m_mediator : Mediator)
    (store : AccountStore) (tx : Transaction) : Bool × List TxCall :=
  if env.LOOKUP_NODE_MODE then
    (true, [])
  else
    let senderPubKey := tx.senderPubKey
    let fromAddr := env.GetAddressFromPublicKey senderPubKey
    let shardId := m_mediator.shardId
    let numShards := m_mediator.numShards
    let correct_shard_from := env.GetShardIndex fromAddr numShards
    if m_mediator.m_mode = Mode.IDLE then
      if correct_shard_from ≠ shardId then
        (false, [])
      else if tx.data.length > 0 ∧ tx.toAddr ≠ env.NullAddress then
        let correct_shard_to := env.GetShardIndex tx.toAddr numShards
        if correct_shard_to ≠ correct_shard_from then
          (false, [])
        else
          lookupTail env store tx fromAddr
      else
        lookupTail env store tx fromAddr
    else
      lookupTail env store tx fromAddr

/-! ## Notions used to state the properties -/

/-- The public keys of the members whose bit is set, in committee order. -/
def flaggedKeys {κ : Type} (getPubKey : κ → PubKey) (bits : List Bool) (commKeys : List κ) :
    List PubKey :=
  ((commKeys.zip bits).filter (fun p => p.2)).map (fun p => getPubKey p.1)

/-- The bit list with the bit at position `i` inverted (unchanged when `i` is no position). -/
def flipBit : List Bool → Nat → List Bool
  | [], _ => []
  | b :: bs, 0 => (!b) :: bs
  | b :: bs, i + 1 => b :: flipBit bs i

/-- The bytes the signers signed: header, then CS1, then the B1 bit vector. -/
def signedBytes {Header : Type} (env : Env) (serializeHeader : Header → Bytes)
    (block : BlockBase Header) : Bytes :=
  serializeHeader block.header ++ env.SerializeSignature block.CS1 ++
    env.BitVectorBytes block.B1

/-- The calls that change the committee: the three committee updates of `Node`. -/
def Call.isMutation : Call → Bool
  | .UpdateDSCommiteeComposition _ => true
  | .UpdateDSCommiteeCompositionAfterVC _ => true
  | .UpdateDSCommitteeAfterFallback _ _ _ _ _ => true
  | _ => false

/-- The per-block step in the words of the specification, on the state (committee, epoch):
a DS block requires `number = epoch + 1` and a valid cosignature against the committee and
yields the advanced committee and `epoch + 1`; a VC block requires `targetEpoch = epoch` and a
valid cosignature against the committee and yields the committee rotated `viewChangeCounter`
times; a fallback block requires `targetEpoch = epoch` and a valid cosignature against
`shards[shardId]` and yields the committee with the fallback leader installed. `none` is
failure. -/
def specStep (env : Env) (st : DSComm × Nat) : DirBlock → Option (DSComm × Nat)
  | .ds b =>
    if b.header.blockNum = st.2 + 1 ∧
        (CheckBlockCosignature env Prod.fst env.SerializeDSBlockHeader b st.1).value =
          .ret true then
      some (env.UpdateDSCommiteeComposition st.1, st.2 + 1)
    else none
  | .vc b =>
    if b.header.vieWChangeDSEpochNo = st.2 ∧
        (CheckBlockCosignature env Prod.fst env.SerializeVCBlockHeader b st.1).value =
          .ret true then
      some (env.UpdateDSCommiteeCompositionAfterVC^[b.header.viewChangeCounter] st.1, st.2)
    else none
  | .fb f =>
    if f.m_fallbackblock.header.fallbackDSEpochNo = st.2 then
      match f.m_shards[f.m_fallbackblock.header.shardId]? with
      | some shard =>
        if (CheckBlockCosignature env (fun kv => kv.1) env.SerializeFallbackBlockHeader
            f.m_fallbackblock shard).value = .ret true then
          some (env.UpdateDSCommitteeAfterFallback f.m_fallbackblock.header.shardId
            f.m_fallbackblock.header.leaderPubKey f.m_fallbackblock.header.leaderNetworkInfo
            st.1 f.m_shards, st.2)
        else none
      | none => none
    else none

/-- The all-or-nothing left fold of `specStep` from (initial committee, epoch 0). -/
def specFold (env : Env) (dirBlocks : List DirBlock) (initDsComm : DSComm) :
    Option (DSComm × Nat) :=
  dirBlocks.foldlM (specStep env) (initDsComm, 0)

/-- A block fails its sequence/epoch check or its cosignature check, in the state
(committee, epoch) the walk has reached. -/
def failsCheck (env : Env) (comm : DSComm) (epoch : Nat) : DirBlock → Bool
  | .ds b =>
    decide (b.header.blockNum ≠ epoch + 1) ||
      decide ((CheckBlockCosignature env Prod.fst env.SerializeDSBlockHeader b comm).value =
        .ret false)
  | .vc b =>
    decide (b.header.vieWChangeDSEpochNo ≠ epoch) ||
      decide ((CheckBlockCosignature env Prod.fst env.SerializeVCBlockHeader b comm).value =
        .ret false)
  | .fb f =>
    decide (f.m_fallbackblock.header.fallbackDSEpochNo ≠ epoch) ||
      (match f.m_shards[f.m_fallbackblock.header.shardId]? with
        | some shard =>
          decide ((CheckBlockCosignature env (fun kv => kv.1)
            env.SerializeFallbackBlockHeader f.m_fallbackblock shard).value = .ret false)
        | none => false)

/-- Number of DS blocks in a list of directory blocks. -/
def countDS : List DirBlock → Nat
  | [] => 0
  | .ds _ :: rest => countDS rest + 1
  | .vc _ :: rest => countDS rest
  | .fb _ :: rest => countDS rest

/-- The block numbers carried by the DS blocks of a list, in order. -/
def dsNumbers : List DirBlock → List Nat
  | [] => []
  | .ds b :: rest => b.header.blockNum :: dsNumbers rest
  | .vc _ :: rest => dsNumbers rest
  | .fb _ :: rest => dsNumbers rest

/-- The number a block carries fits `e` DS blocks before it: a DS block is numbered `e + 1`,
a VC block and a fallback block carry the target DS epoch number `e`. -/
def carriesEpoch (e : Nat) : DirBlock → Bool
  | .ds b => decide (b.header.blockNum = e + 1)
  | .vc b => decide (b.header.vieWChangeDSEpochNo = e)
  | .fb f => decide (f.m_fallbackblock.header.fallbackDSEpochNo = e)

/-- The call is the temporary apply of the account store. -/
def TxCall.isApply : TxCall → Bool
  | .UpdateAccountsTemp _ _ _ _ => true
  | _ => false

/-- The call reads or updates the account store. -/
def TxCall.isAccountStore : TxCall → Bool
  | .IsAccountExist _ => true
  | .GetBalance _ => true
  | .UpdateAccountsTemp _ _ _ _ => true
  | _ => false

/-! ## A concrete instance

A small environment and a committee of four, used to evaluate the definitions. -/

/-- A concrete environment: quorum `n - (n - 1) / 3` (so 3 of 4), aggregation by sum (failing
on no key), a signature that is valid when it equals the byte sum plus the key. -/
def sampleEnv : Env where
  NumForConsensus n := n - (n - 1) / 3
  AggregatePubKeys keys := if keys = [] then none else some keys.sum
  Verify message sig key := decide (sig = message.sum + key)
  SerializeDSBlockHeader h := h.blockNum :: h.other
  SerializeVCBlockHeader h := h.vieWChangeDSEpochNo :: h.viewChangeCounter :: h.other
  SerializeFallbackBlockHeader h :=
    h.fallbackDSEpochNo :: h.shardId :: h.leaderPubKey :: h.leaderNetworkInfo :: h.other
  SerializeSignature sig := [sig]
  BitVectorBytes bits := bits.map (fun b => if b then 1 else 0)
  UpdateDSCommiteeComposition comm := comm.rotate 1
  UpdateDSCommiteeCompositionAfterVC comm := comm.rotate 1
  UpdateDSCommitteeAfterFallback _ leaderPubKey leaderNetworkInfo comm _ :=
    (leaderPubKey, leaderNetworkInfo) :: comm

/-- A DS committee of four members. -/
def sampleComm : DSComm := [(10, 1), (20, 2), (30, 3), (40, 4)]

/-- A DS block with the given number, B2 bitmap and CS2; CS1 is 5, B1 is all set. -/
def sampleDSBlock (num : Nat) (B2 : List Bool) (CS2 : Signature) : DSBlock :=
  { header := { blockNum := num, other := [] }, CS1 := 5, B1 := [true, true, true, true],
    CS2 := CS2, B2 := B2 }

/-- Three DS blocks numbered 1, 2, 3, each cosigned by the first three members of the
committee current at its turn. -/
def sampleDSBlocks : List DSBlock :=
  [sampleDSBlock 1 [true, true, true, false] 70,
   sampleDSBlock 2 [true, true, true, false] 101,
   sampleDSBlock 3 [true, true, true, false] 92]

/-- Two DS blocks numbered 1 and 3, each with a cosignature that verifies against the
committee current at its turn. -/
def sampleGap : List DirBlock :=
  [.ds (sampleDSBlock 1 [true, true, true, false] 70),
   .ds (sampleDSBlock 3 [true, true, true, false] 102)]

/-- A VC block for the given epoch and view-change counter. -/
def sampleVCBlock (epoch counter : Nat) (B2 : List Bool) (CS2 : Signature) : VCBlock :=
  { header := { vieWChangeDSEpochNo := epoch, viewChangeCounter := counter, other := [] },
    CS1 := 5, B1 := [true, true, true, true], CS2 := CS2, B2 := B2 }

/-- A shard of four members. -/
def sampleShard : Shard := [(10, 1, 0), (20, 2, 0), (30, 3, 0), (40, 4, 0)]

/-- A fallback block for the given epoch and shard id, electing the member (20, 2), cosigned
by the first three members, with the given sharding structure. -/
def sampleFallback (epoch shardId : Nat) (shards : DequeOfShard) (CS2 : Signature) :
    FallbackBlockWShardingStructure :=
  { m_fallbackblock :=
      { header := { fallbackDSEpochNo := epoch, shardId := shardId, leaderPubKey := 20,
                    leaderNetworkInfo := 2, other := [] },
        CS1 := 5, B1 := [true, true, true, true], CS2 := CS2,
        B2 := [true, true, true, false] },
    m_shards := shards }

/-- A concrete environment for the transaction checks: address `key + 1000`, shard index
`addr % n`, core fields recipient, amount, data and the rest, a signature that is valid when
it equals the byte sum plus the key. -/
def sampleTxEnv (lookup : Bool) : TxEnv where
  LOOKUP_NODE_MODE := lookup
  NullAddress := 0
  GetAddressFromPublicKey key := key + 1000
  GetShardIndex addr n := addr % n
  SerializeCoreFields tx := tx.toAddr :: tx.amount :: (tx.data ++ tx.other)
  Verify message sig key := decide (sig = message.sum + key)

/-- An account store holding the single account 1007 with balance 50; the temporary apply
succeeds when the amount is positive and writes epoch plus amount into the receipt. -/
def sampleStore : AccountStore where
  IsAccountExist addr := decide (addr = 1007)
  GetBalance addr := if addr = 1007 then 50 else 0
  UpdateAccountsTemp epoch _ _ tx _ := (decide (0 < tx.amount), epoch + tx.amount)

/-- A transaction of the sender with key 7 (address 1007, shard 2 of 3), without data. -/
def sampleTx (toAddr amount : Nat) (sig : Signature) : Transaction :=
  { tranID := 1, senderPubKey := 7, toAddr := toAddr, amount := amount, data := [],
    signature := sig, other := [] }

/-- A node state: epoch 9, the given shard id among 3 shards, the given mode. -/
def sampleMediator (shardId : Nat) (mode : Mode) : Mediator :=
  { m_currentEpochNum := 9, shardId := shardId, numShards := 3, m_mode := mode }

/-- A DS block numbered 1, a VC block for epoch 1 with two rotations, a DS block numbered 2,
each cosigned by the first three members of the committee current at its turn. -/
def sampleMixed : List DirBlock :=
  [.ds (sampleDSBlock 1 [true, true, true, false] 70),
   .vc (sampleVCBlock 1 2 [true, true, true, false] 102),
   .ds (sampleDSBlock 2 [true, true, true, false] 81)]

/-! ## Lemmas on `CheckBlockCosignature` -/

theorem writeAt_end (dst src : Bytes) : writeAt dst dst.length src = dst ++ src := by
  simp [writeAt]

theorem signedBuffer_eq {Header : Type} (env : Env) (serializeHeader : Header → Bytes)
    (block : BlockBase Header) :
    signedBuffer env serializeHeader block = signedBytes env serializeHeader block := by
  unfold signedBuffer signedBytes
  simp only [writeAt_end]
  have h0 : writeAt [] 0 (serializeHeader block.header) = serializeHeader block.header := by
    simp [writeAt]
  rw [h0]

theorem flaggedKeys_cons_true {κ : Type} (getPubKey : κ → PubKey) (kv : κ) (bs : List Bool)
    (rest : List κ) :
    flaggedKeys getPubKey (true :: bs) (kv :: rest) =
      getPubKey kv :: flaggedKeys getPubKey bs rest := by
  simp [flaggedKeys]

theorem flaggedKeys_cons_false {κ : Type} (getPubKey : κ → PubKey) (kv : κ) (bs : List Bool)
    (rest : List κ) :
    flaggedKeys getPubKey (false :: bs) (kv :: rest) = flaggedKeys getPubKey bs rest := by
  simp [flaggedKeys]

/-- Below `2^32` members the counters do not wrap: the loop selects the flagged keys and
counts the set bits. -/
theorem selectKeys_eq {κ : Type} (getPubKey : κ → PubKey) (B2 : List Bool)
    (hsz : B2.length < UINT32) :
    ∀ (rest : List κ) (index count : Nat) (keys : List PubKey),
      index + rest.length = B2.length → count ≤ index →
      selectKeys getPubKey B2 rest index count keys =
        .ret (keys ++ flaggedKeys getPubKey (B2.drop index) rest,
          count + (B2.drop index).count true) := by
  intro rest
  induction rest with
  | nil =>
    intro index count keys hidx _
    have hi : index = B2.length := by simpa using hidx
    subst hi
    simp [selectKeys, flaggedKeys]
  | cons kv rest ih =>
    intro index count keys hidx hc
    have hlt : index < B2.length := by
      simp only [List.length_cons] at hidx
      omega
    have hdrop : B2.drop index = B2[index] :: B2.drop (index + 1) :=
      List.drop_eq_getElem_cons hlt
    have hget : B2[index]? = some B2[index] := List.getElem?_eq_getElem hlt
    have hi1 : (index + 1) % UINT32 = index + 1 := Nat.mod_eq_of_lt (by omega)
    have hc1 : (count + 1) % UINT32 = count + 1 := Nat.mod_eq_of_lt (by omega)
    have hidx1 : index + 1 + rest.length = B2.length := by
      simp only [List.length_cons] at hidx
      omega
    rw [selectKeys, hget, hdrop]
    cases hb : B2[index] with
    | true =>
      simp only [hi1, hc1]
      rw [ih (index + 1) (count + 1) _ hidx1 (by omega), flaggedKeys_cons_true]
      simp [List.count_cons]
      omega
    | false =>
      simp only [hi1]
      rw [ih (index + 1) count _ hidx1 (by omega), flaggedKeys_cons_false]
      simp [List.count_cons]

theorem CheckBlockCosignature_eq {κ Header : Type} (env : Env) (getPubKey : κ → PubKey)
    (serializeHeader : Header → Bytes) (block : BlockBase Header) (commKeys : List κ)
    (hlen : commKeys.length = block.B2.length) (hsz : commKeys.length < UINT32) :
    CheckBlockCosignature env getPubKey serializeHeader block commKeys =
      if block.B2.count true ≠ env.NumForConsensus block.B2.length then
        ⟨.ret false, [.NumForConsensus block.B2.length]⟩
      else
        match env.AggregatePubKeys (flaggedKeys getPubKey block.B2 commKeys) with
        | none =>
          ⟨.ret false, [.NumForConsensus block.B2.length,
            .AggregatePubKeys (flaggedKeys getPubKey block.B2 commKeys)]⟩
        | some k =>
          ⟨.ret (env.Verify (signedBytes env serializeHeader block) block.CS2 k),
            [.NumForConsensus block.B2.length,
              .AggregatePubKeys (flaggedKeys getPubKey block.B2 commKeys),
              .Verify (signedBytes env serializeHeader block) block.CS2 k]⟩ := by
  have hsel := selectKeys_eq getPubKey block.B2 (by omega) commKeys 0 0 []
    (by simpa using hlen) (le_refl 0)
  simp only [List.drop_zero, List.nil_append, Nat.zero_add] at hsel
  unfold CheckBlockCosignature
  simp only [hlen, ne_eq, not_true_eq_false, if_false, hsel, signedBuffer_eq, List.drop_zero,
    List.take_length]
  by_cases hc : block.B2.count true = env.NumForConsensus block.B2.length
  · simp only [hc, not_true_eq_false, if_false]
    cases hagg : env.AggregatePubKeys (flaggedKeys getPubKey block.B2 commKeys) with
    | none => rfl
    | some k =>
      simp only
      cases hv : env.Verify (signedBytes env serializeHeader block) block.CS2 k <;> simp
  · simp [hc]

theorem length_flipBit (bits : List Bool) (i : Nat) : (flipBit bits i).length = bits.length := by
  induction bits generalizing i with
  | nil => rfl
  | cons b bs ih =>
    cases i with
    | zero => rfl
    | succ i => simp [flipBit, ih]

theorem count_flipBit_ne (bits : List Bool) (i : Nat) (hi : i < bits.length) :
    (flipBit bits i).count true ≠ bits.count true := by
  induction bits generalizing i with
  | nil => simp at hi
  | cons b bs ih =>
    cases i with
    | zero => cases b <;> simp [flipBit, List.count_cons]
    | succ i =>
      have := ih i (by simpa using hi)
      cases b <;> simpa [flipBit, List.count_cons] using this

/-! ## Properties of `CheckBlockCosignature` -/

/-- C4: for a committee (of fewer than `2^32` members, the range of the `unsigned int`
counters) and a bitmap B2 of the same length, when the number of set bits of B2 is below
`NumForConsensus(len)`, `CheckBlockCosignature` returns false, and the only collaborator it
has called is the quorum function: key aggregation and the signature primitive are not
consulted, so their answers cannot matter. -/
theorem cosignature_below_quorum {κ Header : Type} (env : Env) (getPubKey : κ → PubKey)
    (serializeHeader : Header → Bytes) (block : BlockBase Header) (commKeys : List κ)
    (hlen : block.B2.length = commKeys.length) (hsz : commKeys.length < UINT32)
    (hlow : block.B2.count true < env.NumForConsensus commKeys.length) :
    CheckBlockCosignature env getPubKey serializeHeader block commKeys =
      ⟨.ret false, [.NumForConsensus commKeys.length]⟩ := by
  rw [CheckBlockCosignature_eq env getPubKey serializeHeader block commKeys hlen.symm hsz]
  have hne : block.B2.count true ≠ env.NumForConsensus block.B2.length := by
    rw [hlen]
    omega
  rw [if_pos hne, hlen]

theorem cosignature_below_quorum_witness :
    CheckBlockCosignature sampleEnv Prod.fst sampleEnv.SerializeDSBlockHeader
        (sampleDSBlock 1 [true, true, false, false] 40) sampleComm =
      ⟨.ret false, [.NumForConsensus 4]⟩ :=
  cosignature_below_quorum sampleEnv Prod.fst sampleEnv.SerializeDSBlockHeader
    (sampleDSBlock 1 [true, true, false, false] 40) sampleComm (by decide) (by decide)
    (by decide)

/-- C5, as stated, fails: with four members, quorum 3 and all four bits of B2 set (4 ≥ 3),
aggregation of the four keys succeeds and the signature primitive accepts CS2 over the signed
bytes under the aggregate key, yet `CheckBlockCosignature` returns false. -/
theorem cosignature_above_quorum_rejected :
    sampleComm.length = (sampleDSBlock 1 [true, true, true, true] 110).B2.length ∧
    sampleEnv.NumForConsensus (sampleDSBlock 1 [true, true, true, true] 110).B2.length ≤
      (sampleDSBlock 1 [true, true, true, true] 110).B2.count true ∧
    sampleEnv.AggregatePubKeys
      (flaggedKeys Prod.fst (sampleDSBlock 1 [true, true, true, true] 110).B2 sampleComm) =
        some 100 ∧
    sampleEnv.Verify
      (signedBytes sampleEnv sampleEnv.SerializeDSBlockHeader
        (sampleDSBlock 1 [true, true, true, true] 110))
      (sampleDSBlock 1 [true, true, true, true] 110).CS2 100 = true ∧
    (CheckBlockCosignature sampleEnv Prod.fst sampleEnv.SerializeDSBlockHeader
      (sampleDSBlock 1 [true, true, true, true] 110) sampleComm).value = .ret false := by
  decide

/-- C5, amended: for a committee (of fewer than `2^32` members) and a bitmap B2 of the same
length whose number of set bits equals `NumForConsensus(len(B2))`, if aggregating the public
keys of the members flagged in B2 succeeds and the signature primitive accepts CS2 under that
aggregate key over `Serialize(header) ++ Serialize(CS1) ++ SerializeBitmap(B1)`, then
`CheckBlockCosignature` returns true. -/
theorem cosignature_exact_quorum_accepted {κ Header : Type} (env : Env)
    (getPubKey : κ → PubKey) (serializeHeader : Header → Bytes) (block : BlockBase Header)
    (commKeys : List κ) (hlen : block.B2.length = commKeys.length)
    (hsz : commKeys.length < UINT32)
    (hq : block.B2.count true = env.NumForConsensus block.B2.length) (k : PubKey)
    (hagg : env.AggregatePubKeys (flaggedKeys getPubKey block.B2 commKeys) = some k)
    (hv : env.Verify (signedBytes env serializeHeader block) block.CS2 k = true) :
    (CheckBlockCosignature env getPubKey serializeHeader block commKeys).value = .ret true := by
  rw [CheckBlockCosignature_eq env getPubKey serializeHeader block commKeys hlen.symm hsz]
  simp [hq, hagg, hv]

theorem cosignature_exact_quorum_accepted_witness :
    (CheckBlockCosignature sampleEnv Prod.fst sampleEnv.SerializeDSBlockHeader
      (sampleDSBlock 1 [true, true, true, false] 70) sampleComm).value = .ret true :=
  cosignature_exact_quorum_accepted sampleEnv Prod.fst sampleEnv.SerializeDSBlockHeader
    (sampleDSBlock 1 [true, true, true, false] 70) sampleComm (by decide) (by decide)
    (by decide) 60 (by decide) (by decide)

/-- C6: when `CheckBlockCosignature` returns true on a block and a committee (of fewer than
`2^32` members), then on the same block with bit `i` of B2 inverted, everything else
unchanged, it returns false, for every position `i` of B2. -/
theorem cosignature_flip_B2_rejected {κ Header : Type} (env : Env) (getPubKey : κ → PubKey)
    (serializeHeader : Header → Bytes) (block : BlockBase Header) (commKeys : List κ)
    (hsz : commKeys.length < UINT32)
    (htrue : (CheckBlockCosignature env getPubKey serializeHeader block commKeys).value =
      .ret true)
    (i : Nat) (hi : i < block.B2.length) :
    (CheckBlockCosignature env getPubKey serializeHeader
      { block with B2 := flipBit block.B2 i } commKeys).value = .ret false := by
  have hlen : commKeys.length = block.B2.length := by
    by_contra hne
    simp [CheckBlockCosignature, hne] at htrue
  have hq : block.B2.count true = env.NumForConsensus block.B2.length := by
    by_contra hne
    rw [CheckBlockCosignature_eq env getPubKey serializeHeader block commKeys hlen hsz] at htrue
    simp [hne] at htrue
  have hlen2 : commKeys.length = (flipBit block.B2 i).length := by
    rw [length_flipBit]
    exact hlen
  rw [CheckBlockCosignature_eq env getPubKey serializeHeader _ commKeys hlen2 hsz]
  have hne : (flipBit block.B2 i).count true ≠ env.NumForConsensus (flipBit block.B2 i).length := by
    rw [length_flipBit, ← hq]
    exact count_flipBit_ne block.B2 i hi
  simp [hne]

theorem cosignature_flip_B2_rejected_witness :
    (CheckBlockCosignature sampleEnv Prod.fst sampleEnv.SerializeDSBlockHeader
      { sampleDSBlock 1 [true, true, true, false] 70 with
        B2 := flipBit (sampleDSBlock 1 [true, true, true, false] 70).B2 3 }
      sampleComm).value = .ret false :=
  cosignature_flip_B2_rejected sampleEnv Prod.fst sampleEnv.SerializeDSBlockHeader
    (sampleDSBlock 1 [true, true, true, false] 70) sampleComm (by decide) (by decide) 3
    (by decide)

/-- C7: with a committee of 4 members and `NumForConsensus(4) = 3`: every block whose B2 has
length 4 and exactly 3 set bits, for which aggregation of the 3 selected keys succeeds and the
signature primitive accepts CS2 over the signed bytes under the aggregate key, is accepted;
and every block whose B2 has length 4 and exactly 2 set bits is rejected, whatever the
signature primitive answers. -/
theorem cosignature_four_members {κ Header : Type} (env : Env) (getPubKey : κ → PubKey)
    (serializeHeader : Header → Bytes) (commKeys : List κ) (h4 : commKeys.length = 4)
    (hquorum : env.NumForConsensus 4 = 3) :
    (∀ (block : BlockBase Header) (k : PubKey), block.B2.length = 4 →
      block.B2.count true = 3 →
      env.AggregatePubKeys (flaggedKeys getPubKey block.B2 commKeys) = some k →
      env.Verify (signedBytes env serializeHeader block) block.CS2 k = true →
      (CheckBlockCosignature env getPubKey serializeHeader block commKeys).value =
        .ret true) ∧
    (∀ (block : BlockBase Header), block.B2.length = 4 → block.B2.count true = 2 →
      (CheckBlockCosignature env getPubKey serializeHeader block commKeys).value =
        .ret false) := by
  have hsz : commKeys.length < UINT32 := by
    rw [h4]
    decide
  constructor
  · intro block k hb hc hagg hv
    rw [CheckBlockCosignature_eq env getPubKey serializeHeader block commKeys
      (by rw [h4, hb]) hsz]
    simp [hb, hc, hquorum, hagg, hv]
  · intro block hb hc
    rw [CheckBlockCosignature_eq env getPubKey serializeHeader block commKeys
      (by rw [h4, hb]) hsz]
    simp [hb, hc, hquorum]

theorem cosignature_four_members_witness :
    (CheckBlockCosignature sampleEnv Prod.fst sampleEnv.SerializeDSBlockHeader
      (sampleDSBlock 1 [true, false, true, true] 90) sampleComm).value = .ret true ∧
    sampleEnv.Verify
      (signedBytes sampleEnv sampleEnv.SerializeDSBlockHeader
        (sampleDSBlock 1 [true, true, false, false] 40)) 40 30 = true ∧
    (CheckBlockCosignature sampleEnv Prod.fst sampleEnv.SerializeDSBlockHeader
      (sampleDSBlock 1 [true, true, false, false] 40) sampleComm).value = .ret false :=
  ⟨(cosignature_four_members sampleEnv Prod.fst sampleEnv.SerializeDSBlockHeader sampleComm
      (by decide) (by decide)).1 (sampleDSBlock 1 [true, false, true, true] 90) 80
      (by decide) (by decide) (by decide) (by decide),
    by decide,
    (cosignature_four_members sampleEnv Prod.fst sampleEnv.SerializeDSBlockHeader sampleComm
      (by decide) (by decide)).2 (sampleDSBlock 1 [true, true, false, false] 40)
      (by decide) (by decide)⟩

/-- C8: when the committee and B2 differ in length, `CheckBlockCosignature` returns false and
has called no collaborator: neither the quorum function, nor key aggregation, nor the
signature primitive. -/
theorem cosignature_size_mismatch {κ Header : Type} (env : Env) (getPubKey : κ → PubKey)
    (serializeHeader : Header → Bytes) (block : BlockBase Header) (commKeys : List κ)
    (hne : commKeys.length ≠ block.B2.length) :
    CheckBlockCosignature env getPubKey serializeHeader block commKeys = ⟨.ret false, []⟩ := by
  simp [CheckBlockCosignature, hne]

theorem cosignature_size_mismatch_witness :
    CheckBlockCosignature sampleEnv Prod.fst sampleEnv.SerializeDSBlockHeader
      (sampleDSBlock 1 [true, true, true] 70) sampleComm = ⟨.ret false, []⟩ :=
  cosignature_size_mismatch sampleEnv Prod.fst sampleEnv.SerializeDSBlockHeader
    (sampleDSBlock 1 [true, true, true] 70) sampleComm (by decide)

/-- C9: whenever `CheckBlockCosignature` (on a committee of fewer than `2^32` members) has
called the signature primitive, the message of that call is
`Serialize(header) ++ Serialize(CS1) ++ SerializeBitmap(B1)`, the signature is CS2, the key is
the aggregate of the public keys of the members whose B2 bit is set, in committee order, and
the value returned is the answer of the primitive. -/
theorem cosignature_verify_call {κ Header : Type} (env : Env) (getPubKey : κ → PubKey)
    (serializeHeader : Header → Bytes) (block : BlockBase Header) (commKeys : List κ)
    (hsz : commKeys.length < UINT32) (message : Bytes) (sig : Signature) (key : PubKey)
    (hcall : Call.Verify message sig key ∈
      (CheckBlockCosignature env getPubKey serializeHeader block commKeys).calls) :
    message = serializeHeader block.header ++ env.SerializeSignature block.CS1 ++
        env.BitVectorBytes block.B1 ∧
      sig = block.CS2 ∧
      env.AggregatePubKeys (flaggedKeys getPubKey block.B2 commKeys) = some key ∧
      (CheckBlockCosignature env getPubKey serializeHeader block commKeys).value =
        .ret (env.Verify message sig key) := by
  by_cases hlen : commKeys.length = block.B2.length
  · rw [CheckBlockCosignature_eq env getPubKey serializeHeader block commKeys hlen hsz]
      at hcall ⊢
    by_cases hq : block.B2.count true = env.NumForConsensus block.B2.length
    · cases hagg : env.AggregatePubKeys (flaggedKeys getPubKey block.B2 commKeys) with
      | none => simp [hq, hagg] at hcall
      | some k =>
        simp only [hq, hagg, ne_eq, not_true_eq_false, if_false, List.mem_cons,
          List.mem_singleton, Call.Verify.injEq, List.mem_nil_iff, or_false,
          false_or, reduceCtorEq] at hcall
        obtain ⟨hm, hs, hk⟩ := hcall
        subst hm hs hk
        simp [hq, signedBytes]
    · simp [hq] at hcall
  · simp [CheckBlockCosignature, hlen] at hcall

theorem cosignature_verify_call_witness :
    ([1, 5, 1, 1, 1, 1] : Bytes) =
        sampleEnv.SerializeDSBlockHeader (sampleDSBlock 1 [true, true, true, false] 70).header
          ++ sampleEnv.SerializeSignature (sampleDSBlock 1 [true, true, true, false] 70).CS1
          ++ sampleEnv.BitVectorBytes (sampleDSBlock 1 [true, true, true, false] 70).B1 ∧
      (70 : Signature) = (sampleDSBlock 1 [true, true, true, false] 70).CS2 ∧
      sampleEnv.AggregatePubKeys
        (flaggedKeys Prod.fst (sampleDSBlock 1 [true, true, true, false] 70).B2 sampleComm) =
          some 60 ∧
      (CheckBlockCosignature sampleEnv Prod.fst sampleEnv.SerializeDSBlockHeader
        (sampleDSBlock 1 [true, true, true, false] 70) sampleComm).value =
          .ret (sampleEnv.Verify [1, 5, 1, 1, 1, 1] 70 60) :=
  cosignature_verify_call sampleEnv Prod.fst sampleEnv.SerializeDSBlockHeader
    (sampleDSBlock 1 [true, true, true, false] 70) sampleComm (by decide) [1, 5, 1, 1, 1, 1]
    70 60 (by decide)

/-! ## Lemmas on `CheckDirBlocks` -/

theorem cosignature_calls_no_mutation {κ Header : Type} (env : Env) (getPubKey : κ → PubKey)
    (serializeHeader : Header → Bytes) (block : BlockBase Header) (commKeys : List κ) :
    (CheckBlockCosignature env getPubKey serializeHeader block commKeys).calls.filter
      Call.isMutation = [] := by
  unfold CheckBlockCosignature
  simp only
  split
  · rfl
  · split
    · rfl
    · split
      · rfl
      · split
        · rfl
        · split <;> rfl

theorem vcLoop_fst (env : Env) (n : Nat) (comm : DSComm) (calls : List Call) :
    (vcLoop env n comm calls).1 = env.UpdateDSCommiteeCompositionAfterVC^[n] comm := by
  induction n generalizing comm calls with
  | zero => rfl
  | succ n ih => simp [vcLoop, ih]

theorem vcLoop_snd (env : Env) (n : Nat) (comm : DSComm) (calls : List Call) :
    (vcLoop env n comm calls).2 =
      calls ++ (List.range n).map (fun i =>
        Call.UpdateDSCommiteeCompositionAfterVC
          (env.UpdateDSCommiteeCompositionAfterVC^[i] comm)) := by
  induction n generalizing comm calls with
  | zero => simp [vcLoop]
  | succ n ih =>
    simp only [vcLoop, ih, List.range_succ_eq_map, List.map_cons, List.map_map,
      Function.iterate_zero, id_eq, List.append_assoc, List.singleton_append]
    rfl

theorem dsBranch_exit (env : Env) (b : DSBlock) (s s1 : WalkState) (r : Result Bool)
    (h : dsBranch env b s = (some r, s1)) : r ≠ .ret true := by
  unfold dsBranch at h
  split at h
  · simp only [Prod.mk.injEq, Option.some.injEq] at h
    rw [← h.1]
    simp
  · simp only at h
    split at h
    · simp only [Prod.mk.injEq, Option.some.injEq] at h
      rw [← h.1]
      simp
    · simp only [Prod.mk.injEq, Option.some.injEq] at h
      rw [← h.1]
      simp
    · simp at h

theorem vcBranch_exit (env : Env) (b : VCBlock) (s s1 : WalkState) (r : Result Bool)
    (h : vcBranch env b s = (some r, s1)) : r ≠ .ret true := by
  unfold vcBranch at h
  split at h
  · simp only [Prod.mk.injEq, Option.some.injEq] at h
    rw [← h.1]
    simp
  · simp only at h
    split at h
    · simp only [Prod.mk.injEq, Option.some.injEq] at h
      rw [← h.1]
      simp
    · simp only [Prod.mk.injEq, Option.some.injEq] at h
      rw [← h.1]
      simp
    · simp at h

theorem fbBranch_exit (env : Env) (f : FallbackBlockWShardingStructure) (s s1 : WalkState)
    (r : Result Bool) (h : fbBranch env f s = (some r, s1)) : r ≠ .ret true := by
  unfold fbBranch at h
  simp only at h
  split at h
  · simp only [Prod.mk.injEq, Option.some.injEq] at h
    rw [← h.1]
    simp
  · split at h
    · simp only [Prod.mk.injEq, Option.some.injEq] at h
      rw [← h.1]
      simp
    · split at h
      · simp only [Prod.mk.injEq, Option.some.injEq] at h
        rw [← h.1]
        simp
      · simp only [Prod.mk.injEq, Option.some.injEq] at h
        rw [← h.1]
        simp
      · simp at h

/-- The three-alternative input type never reaches the final `else` of the `typeid` chain:
the body of the loop is the branch of the alternative held. -/
theorem loopBody_eq (env : Env) (b : DirBlock) (s : WalkState) :
    loopBody env b s =
      match b with
      | .ds dsblock => dsBranch env dsblock s
      | .vc vcblock => vcBranch env vcblock s
      | .fb fbs => fbBranch env fbs s := by
  cases b <;> simp [loopBody, DirBlock.type]

/-- The loop is never left early with `true`. -/
theorem loopBody_exit (env : Env) (b : DirBlock) (s s1 : WalkState) (r : Result Bool)
    (h : loopBody env b s = (some r, s1)) : r ≠ .ret true := by
  rw [loopBody_eq] at h
  cases b with
  | ds d => exact dsBranch_exit env d s s1 r h
  | vc v => exact vcBranch_exit env v s s1 r h
  | fb f => exact fbBranch_exit env f s s1 r h

theorem walk_append (env : Env) (pre post : List DirBlock) (s : WalkState) :
    walk env (pre ++ post) s =
      if (walk env pre s).1 = .ret true then walk env post (walk env pre s).2
      else walk env pre s := by
  induction pre generalizing s with
  | nil => simp [walk]
  | cons b pre ih =>
    simp only [List.cons_append, walk]
    cases hb : loopBody env b s with
    | mk o s1 =>
      cases o with
      | none => simpa using ih s1
      | some r =>
        simp only
        split
        · rename_i h
          exact absurd h (loopBody_exit env b s s1 r hb)
        · rfl

theorem loopBody_of_specStep_some (env : Env) (b : DirBlock) (s : WalkState)
    (hlt : s.prevdsblocknum + 1 < UINT64) (st : DSComm × Nat)
    (h : specStep env (s.mutable_ds_comm, s.prevdsblocknum) b = some st) :
    ∃ s1, loopBody env b s = (none, s1) ∧ s1.mutable_ds_comm = st.1 ∧
      s1.prevdsblocknum = st.2 ∧ s1.prevdsblocknum ≤ s.prevdsblocknum + 1 := by
  have hm : (s.prevdsblocknum + 1) % UINT64 = s.prevdsblocknum + 1 := Nat.mod_eq_of_lt hlt
  rw [loopBody_eq]
  cases b with
  | ds d =>
    simp only [specStep] at h
    split at h
    · rename_i hc
      simp only [Option.some.injEq] at h
      subst h
      simp [dsBranch, hm, hc.1, hc.2]
    · simp at h
  | vc v =>
    simp only [specStep] at h
    split at h
    · rename_i hc
      simp only [Option.some.injEq] at h
      subst h
      simp [vcBranch, hc.1, hc.2, vcLoop_fst]
    · simp at h
  | fb f =>
    simp only [specStep] at h
    split at h
    · rename_i hc
      split at h
      · rename_i shard hshard
        split at h
        · rename_i hv
          simp only [Option.some.injEq] at h
          subst h
          simp [fbBranch, hc, hshard, hv]
        · simp at h
      · simp at h
    · simp at h

theorem loopBody_of_specStep_none (env : Env) (b : DirBlock) (s : WalkState)
    (hlt : s.prevdsblocknum + 1 < UINT64)
    (h : specStep env (s.mutable_ds_comm, s.prevdsblocknum) b = none) :
    ∃ r s1, loopBody env b s = (some r, s1) := by
  have hm : (s.prevdsblocknum + 1) % UINT64 = s.prevdsblocknum + 1 := Nat.mod_eq_of_lt hlt
  rw [loopBody_eq]
  cases b with
  | ds d =>
    simp only [specStep] at h
    split at h
    · simp at h
    · rename_i hc
      simp only [dsBranch, hm]
      by_cases hn : d.header.blockNum = s.prevdsblocknum + 1
      · simp only [hn, ne_eq, not_true_eq_false, if_false]
        cases hv : (CheckBlockCosignature env Prod.fst env.SerializeDSBlockHeader d
          s.mutable_ds_comm).value with
        | throw e => simp
        | ret v =>
          cases v with
          | false => simp
          | true => exact absurd ⟨hn, hv⟩ hc
      · simp [hn]
  | vc v =>
    simp only [specStep] at h
    split at h
    · simp at h
    · rename_i hc
      simp only [vcBranch]
      by_cases hn : v.header.vieWChangeDSEpochNo = s.prevdsblocknum
      · simp only [hn, ne_eq, not_true_eq_false, if_false]
        cases hv : (CheckBlockCosignature env Prod.fst env.SerializeVCBlockHeader v
          s.mutable_ds_comm).value with
        | throw e => simp
        | ret w =>
          cases w with
          | false => simp
          | true => exact absurd ⟨hn, hv⟩ hc
      · simp [hn]
  | fb f =>
    simp only [specStep] at h
    simp only [fbBranch]
    by_cases hn : f.m_fallbackblock.header.fallbackDSEpochNo = s.prevdsblocknum
    · simp only [hn, if_true, ne_eq, not_true_eq_false, if_false] at h ⊢
      cases hshard : f.m_shards[f.m_fallbackblock.header.shardId]? with
      | none => simp
      | some shard =>
        simp only [hshard] at h
        simp only
        cases hv : (CheckBlockCosignature env (fun kv => kv.1)
          env.SerializeFallbackBlockHeader f.m_fallbackblock shard).value with
        | throw e => simp
        | ret w =>
          cases w with
          | false => simp
          | true => simp [hv] at h
    · simp [hn]

theorem walk_specFold (env : Env) (blocks : List DirBlock) :
    ∀ s : WalkState, s.prevdsblocknum + blocks.length < UINT64 →
      (∀ st, blocks.foldlM (specStep env) (s.mutable_ds_comm, s.prevdsblocknum) = some st →
        (walk env blocks s).1 = .ret true ∧ (walk env blocks s).2.mutable_ds_comm = st.1 ∧
          (walk env blocks s).2.prevdsblocknum = st.2) ∧
      (blocks.foldlM (specStep env) (s.mutable_ds_comm, s.prevdsblocknum) = none →
        (walk env blocks s).1 ≠ .ret true) := by
  induction blocks with
  | nil =>
    intro s _
    constructor
    · intro st h
      simp only [List.foldlM_nil, pure, Option.some.injEq] at h
      subst h
      simp [walk]
    · intro h
      simp [pure] at h
  | cons b rest ih =>
    intro s hlen
    simp only [List.length_cons] at hlen
    have hlt : s.prevdsblocknum + 1 < UINT64 := by omega
    simp only [List.foldlM_cons, walk]
    cases hstep : specStep env (s.mutable_ds_comm, s.prevdsblocknum) b with
    | none =>
      obtain ⟨r, s1, hb⟩ := loopBody_of_specStep_none env b s hlt hstep
      constructor
      · intro st h
        simp [bind] at h
      · intro _
        rw [hb]
        exact loopBody_exit env b s s1 r hb
    | some st1 =>
      obtain ⟨s1, hb, hc, he, hle⟩ := loopBody_of_specStep_some env b s hlt st1 hstep
      have hst1 : st1 = (s1.mutable_ds_comm, s1.prevdsblocknum) := by
        rw [hc, he]
      rw [hb]
      simp only [bind, Option.bind, hst1]
      exact ih s1 (by omega)

theorem loopBody_prev_le (env : Env) (b : DirBlock) (s : WalkState) :
    (loopBody env b s).2.prevdsblocknum ≤ s.prevdsblocknum + 1 := by
  have hmod : (s.prevdsblocknum + 1) % UINT64 ≤ s.prevdsblocknum + 1 := Nat.mod_le _ _
  rw [loopBody_eq]
  cases b with
  | ds d =>
    simp only [dsBranch]
    split
    · simp
    · split <;> simp [hmod]
  | vc v =>
    simp only [vcBranch]
    split
    · simp
    · split <;> simp
  | fb f =>
    simp only [fbBranch]
    split
    · simp
    · split
      · simp
      · split <;> simp

theorem walk_prev_le (env : Env) (blocks : List DirBlock) :
    ∀ s : WalkState, (walk env blocks s).2.prevdsblocknum ≤ s.prevdsblocknum + blocks.length := by
  induction blocks with
  | nil =>
    intro s
    simp [walk]
  | cons b rest ih =>
    intro s
    have hb := loopBody_prev_le env b s
    simp only [walk, List.length_cons]
    cases hbody : loopBody env b s with
    | mk o s1 =>
      rw [hbody] at hb
      cases o with
      | some r =>
        simp only at hb ⊢
        omega
      | none =>
        have := ih s1
        simp only at hb ⊢
        omega

theorem loopBody_of_failsCheck (env : Env) (b : DirBlock) (s : WalkState)
    (hlt : s.prevdsblocknum + 1 < UINT64)
    (h : failsCheck env s.mutable_ds_comm s.prevdsblocknum b = true) :
    ∃ s1, loopBody env b s = (some (.ret false), s1) ∧
      s1.calls.filter Call.isMutation = s.calls.filter Call.isMutation ∧
      s1.mutable_ds_comm = s.mutable_ds_comm ∧ s1.prevdsblocknum = s.prevdsblocknum := by
  have hm : (s.prevdsblocknum + 1) % UINT64 = s.prevdsblocknum + 1 := Nat.mod_eq_of_lt hlt
  rw [loopBody_eq]
  cases b with
  | ds d =>
    simp only [failsCheck, Bool.or_eq_true, decide_eq_true_eq] at h
    simp only [dsBranch, hm]
    by_cases hn : d.header.blockNum = s.prevdsblocknum + 1
    · have hv := h.resolve_left (fun hne => hne hn)
      simp [hn, hv, cosignature_calls_no_mutation]
    · simp [hn]
  | vc v =>
    simp only [failsCheck, Bool.or_eq_true, decide_eq_true_eq] at h
    simp only [vcBranch]
    by_cases hn : v.header.vieWChangeDSEpochNo = s.prevdsblocknum
    · have hv := h.resolve_left (fun hne => hne hn)
      simp [hn, hv, cosignature_calls_no_mutation]
    · simp [hn]
  | fb f =>
    simp only [failsCheck, Bool.or_eq_true, decide_eq_true_eq] at h
    simp only [fbBranch]
    by_cases hn : f.m_fallbackblock.header.fallbackDSEpochNo = s.prevdsblocknum
    · have hv := h.resolve_left (fun hne => hne hn)
      cases hshard : f.m_shards[f.m_fallbackblock.header.shardId]? with
      | none => simp [hshard] at hv
      | some shard =>
        simp only [hshard, decide_eq_true_eq] at hv
        simp [hn, hv, cosignature_calls_no_mutation]
    · simp [hn]

theorem walk_ds_chain (env : Env) (blocks : List DSBlock) :
    ∀ s : WalkState, s.prevdsblocknum + blocks.length < UINT64 →
      (∀ i (h : i < blocks.length), blocks[i].header.blockNum = s.prevdsblocknum + i + 1) →
      (∀ i (h : i < blocks.length),
        (CheckBlockCosignature env Prod.fst env.SerializeDSBlockHeader blocks[i]
          (env.UpdateDSCommiteeComposition^[i] s.mutable_ds_comm)).value = .ret true) →
      (walk env (blocks.map DirBlock.ds) s).1 = .ret true ∧
      (walk env (blocks.map DirBlock.ds) s).2.prevdsblocknum =
        s.prevdsblocknum + blocks.length ∧
      (walk env (blocks.map DirBlock.ds) s).2.mutable_ds_comm =
        env.UpdateDSCommiteeComposition^[blocks.length] s.mutable_ds_comm ∧
      (walk env (blocks.map DirBlock.ds) s).2.calls.filter Call.isMutation =
        s.calls.filter Call.isMutation ++ (List.range blocks.length).map (fun i =>
          Call.UpdateDSCommiteeComposition
            (env.UpdateDSCommiteeComposition^[i] s.mutable_ds_comm)) := by
  induction blocks with
  | nil =>
    intro s _ _ _
    simp [walk]
  | cons b rest ih =>
    intro s hlen hnum hsig
    simp only [List.length_cons] at hlen
    have hm : (s.prevdsblocknum + 1) % UINT64 = s.prevdsblocknum + 1 :=
      Nat.mod_eq_of_lt (by omega)
    have h0 : b.header.blockNum = s.prevdsblocknum + 1 := by
      simpa using hnum 0 (by simp)
    have hs0 : (CheckBlockCosignature env Prod.fst env.SerializeDSBlockHeader b
        s.mutable_ds_comm).value = .ret true := by
      simpa using hsig 0 (by simp)
    have hbody : loopBody env (.ds b) s = (none,
        { mutable_ds_comm := env.UpdateDSCommiteeComposition s.mutable_ds_comm
          prevdsblocknum := s.prevdsblocknum + 1
          totalIndex := (s.totalIndex + 1) % UINT64
          calls := s.calls ++ (CheckBlockCosignature env Prod.fst
            env.SerializeDSBlockHeader b s.mutable_ds_comm).calls ++
            [.UpdateDSCommiteeComposition s.mutable_ds_comm] }) := by
      rw [loopBody_eq]
      simp [dsBranch, hm, h0, hs0]
    have hrec := ih
      { mutable_ds_comm := env.UpdateDSCommiteeComposition s.mutable_ds_comm
        prevdsblocknum := s.prevdsblocknum + 1
        totalIndex := (s.totalIndex + 1) % UINT64
        calls := s.calls ++ (CheckBlockCosignature env Prod.fst
          env.SerializeDSBlockHeader b s.mutable_ds_comm).calls ++
          [.UpdateDSCommiteeComposition s.mutable_ds_comm] }
      (by simp only; omega)
      (by
        intro i hi
        have := hnum (i + 1) (by simpa using hi)
        simp only [List.getElem_cons_succ] at this
        simp only [this]
        omega)
      (by
        intro i hi
        have := hsig (i + 1) (by simpa using hi)
        simpa [Function.iterate_succ_apply] using this)
    simp only [List.map_cons, walk, hbody, List.length_cons]
    obtain ⟨h1, h2, h3, h4⟩ := hrec
    refine ⟨h1, ?_, ?_, ?_⟩
    · rw [h2]
      simp only
      omega
    · rw [h3, Function.iterate_succ_apply]
    · rw [h4]
      simp only [List.filter_append, cosignature_calls_no_mutation, List.append_nil,
        List.range_succ_eq_map, List.map_cons, List.map_map, Function.iterate_zero, id_eq,
        List.append_assoc]
      rfl

/-! ## Properties of `CheckDirBlocks` -/

/-- C1: `CheckDirBlocks` is the all-or-nothing left fold of the per-block step of the
specification. For every list of fewer than `2^64` blocks (the range of the `uint64_t` epoch
counter) and every initial committee: it returns true exactly when the fold of `specStep`
from (initial committee, epoch 0) succeeds; when it does, the working committee and the epoch
counter at the end are the state the fold ends in; and no block is skipped by the final
`else` of the `typeid` chain, the body of the loop being the branch of the alternative held. -/
theorem CheckDirBlocks_refines_specFold (env : Env) (dirBlocks : List DirBlock)
    (initDsComm : DSComm) (hlen : dirBlocks.length < UINT64) :
    (CheckDirBlocks env dirBlocks initDsComm = .ret true ↔
      (specFold env dirBlocks initDsComm).isSome = true) ∧
    (∀ st, specFold env dirBlocks initDsComm = some st →
      (CheckDirBlocksRun env dirBlocks initDsComm).2.mutable_ds_comm = st.1 ∧
      (CheckDirBlocksRun env dirBlocks initDsComm).2.prevdsblocknum = st.2) ∧
    (∀ (b : DirBlock) (s : WalkState), loopBody env b s =
      match b with
      | .ds dsblock => dsBranch env dsblock s
      | .vc vcblock => vcBranch env vcblock s
      | .fb fbs => fbBranch env fbs s) := by
  have h := walk_specFold env dirBlocks (initState initDsComm)
    (by simpa [initState] using hlen)
  simp only [initState] at h
  refine ⟨?_, ?_, loopBody_eq env⟩
  · unfold CheckDirBlocks CheckDirBlocksRun specFold
    simp only [initState]
    cases hf : List.foldlM (specStep env) (initDsComm, 0) dirBlocks with
    | none =>
      have := h.2 hf
      simp [this]
    | some st =>
      have := (h.1 st hf).1
      simp [this]
  · intro st hst
    exact (h.1 st hst).2

theorem CheckDirBlocks_refines_specFold_witness :
    (CheckDirBlocks sampleEnv (sampleDSBlocks.map DirBlock.ds) sampleComm = .ret true ↔
      (specFold sampleEnv (sampleDSBlocks.map DirBlock.ds) sampleComm).isSome = true) ∧
    (CheckDirBlocks sampleEnv sampleGap sampleComm = .ret true ↔
      (specFold sampleEnv sampleGap sampleComm).isSome = true) ∧
    specFold sampleEnv (sampleDSBlocks.map DirBlock.ds) sampleComm =
      some ([(40, 4), (10, 1), (20, 2), (30, 3)], 3) ∧
    specFold sampleEnv sampleGap sampleComm = none :=
  ⟨(CheckDirBlocks_refines_specFold sampleEnv (sampleDSBlocks.map DirBlock.ds) sampleComm
      (by decide)).1,
    (CheckDirBlocks_refines_specFold sampleEnv sampleGap sampleComm (by decide)).1,
    by decide, by decide⟩

/-- C2: for every list of `n` DS blocks (`n < 2^64`, the range of the block number) numbered
1, 2, ..., n in order, each with a cosignature that `CheckBlockCosignature` accepts against
the committee current at its turn, `CheckDirBlocks` returns true, ends with the epoch counter
equal to `n`, and its committee-changing calls are exactly `n` calls of the DS-block
committee advance, the `i`-th on the committee advanced `i` times. -/
theorem CheckDirBlocks_ds_chain (env : Env) (blocks : List DSBlock) (initDsComm : DSComm)
    (hn : blocks.length < UINT64)
    (hnum : ∀ i (h : i < blocks.length), blocks[i].header.blockNum = i + 1)
    (hsig : ∀ i (h : i < blocks.length),
      (CheckBlockCosignature env Prod.fst env.SerializeDSBlockHeader blocks[i]
        (env.UpdateDSCommiteeComposition^[i] initDsComm)).value = .ret true) :
    CheckDirBlocks env (blocks.map DirBlock.ds) initDsComm = .ret true ∧
    (CheckDirBlocksRun env (blocks.map DirBlock.ds) initDsComm).2.prevdsblocknum =
      blocks.length ∧
    (CheckDirBlocksRun env (blocks.map DirBlock.ds) initDsComm).2.calls.filter
        Call.isMutation =
      (List.range blocks.length).map (fun i =>
        Call.UpdateDSCommiteeComposition (env.UpdateDSCommiteeComposition^[i] initDsComm)) ∧
    ((CheckDirBlocksRun env (blocks.map DirBlock.ds) initDsComm).2.calls.filter
        Call.isMutation).length = blocks.length := by
  have h := walk_ds_chain env blocks (initState initDsComm)
    (by simpa [initState] using hn)
    (by simpa [initState] using hnum)
    (by simpa [initState] using hsig)
  simp only [initState, Nat.zero_add, List.filter_nil, List.nil_append] at h
  obtain ⟨h1, h2, _, h4⟩ := h
  refine ⟨h1, h2, h4, ?_⟩
  unfold CheckDirBlocksRun
  simp only [initState]
  rw [h4]
  simp

theorem CheckDirBlocks_ds_chain_witness :
    CheckDirBlocks sampleEnv (sampleDSBlocks.map DirBlock.ds) sampleComm = .ret true ∧
    (CheckDirBlocksRun sampleEnv (sampleDSBlocks.map DirBlock.ds) sampleComm).2.prevdsblocknum
      = 3 ∧
    ((CheckDirBlocksRun sampleEnv (sampleDSBlocks.map DirBlock.ds) sampleComm).2.calls.filter
        Call.isMutation).length = 3 :=
  have h := CheckDirBlocks_ds_chain sampleEnv sampleDSBlocks sampleComm (by decide)
    (by decide) (by decide)
  ⟨h.1, h.2.1, h.2.2.2⟩

/-- C3: in every block list (of fewer than `2^64` blocks) whose blocks before some block `b`
all pass and in which `b` fails its sequence/epoch check or its cosignature check,
`CheckDirBlocks` returns false, and the committee-changing calls it has made, as well as the
working committee it ends with, are those of the blocks strictly before `b`: none is made for
`b` or for a later block. -/
theorem CheckDirBlocks_stops_at_first_failure (env : Env) (pre : List DirBlock)
    (b : DirBlock) (post : List DirBlock) (initDsComm : DSComm)
    (hlen : (pre ++ b :: post).length < UINT64)
    (hpre : CheckDirBlocks env pre initDsComm = .ret true)
    (hfail : failsCheck env (CheckDirBlocksRun env pre initDsComm).2.mutable_ds_comm
      (CheckDirBlocksRun env pre initDsComm).2.prevdsblocknum b = true) :
    CheckDirBlocks env (pre ++ b :: post) initDsComm = .ret false ∧
    (CheckDirBlocksRun env (pre ++ b :: post) initDsComm).2.calls.filter Call.isMutation =
      (CheckDirBlocksRun env pre initDsComm).2.calls.filter Call.isMutation ∧
    (CheckDirBlocksRun env (pre ++ b :: post) initDsComm).2.mutable_ds_comm =
      (CheckDirBlocksRun env pre initDsComm).2.mutable_ds_comm := by
  unfold CheckDirBlocks CheckDirBlocksRun at *
  have hle := walk_prev_le env pre (initState initDsComm)
  simp only [List.length_append, List.length_cons] at hlen
  have hlt : (walk env pre (initState initDsComm)).2.prevdsblocknum + 1 < UINT64 := by
    simp only [initState] at hle ⊢
    omega
  obtain ⟨s1, hbody, hcalls, hcomm, _⟩ :=
    loopBody_of_failsCheck env b (walk env pre (initState initDsComm)).2 hlt hfail
  rw [walk_append, if_pos hpre]
  simp only [walk, hbody]
  exact ⟨trivial, hcalls, hcomm⟩

theorem CheckDirBlocks_stops_at_first_failure_witness :
    CheckDirBlocks sampleEnv sampleGap sampleComm = .ret false ∧
    (CheckDirBlocksRun sampleEnv sampleGap sampleComm).2.calls.filter Call.isMutation =
      [Call.UpdateDSCommiteeComposition sampleComm] :=
  have h := CheckDirBlocks_stops_at_first_failure sampleEnv
    [.ds (sampleDSBlock 1 [true, true, true, false] 70)]
    (.ds (sampleDSBlock 3 [true, true, true, false] 102)) [] sampleComm
    (by decide) (by decide) (by decide)
  ⟨h.1, h.2.1.trans (by decide)⟩

/-- C10: when the blocks before a VC block all pass, the target epoch of the VC block equals
the running epoch and its cosignature verifies against the current DS committee, then
`CheckDirBlocks` goes on past the VC block, leaves the epoch counter unchanged, and after the
cosignature check calls the view-change rotation exactly `viewChangeCounter` times in
succession on the working committee (the `i`-th call on the committee rotated `i` times),
which ends rotated `viewChangeCounter` times. -/
theorem CheckDirBlocks_vc_rotations (env : Env) (pre : List DirBlock) (vcblock : VCBlock)
    (initDsComm : DSComm)
    (hpre : CheckDirBlocks env pre initDsComm = .ret true)
    (hepoch : vcblock.header.vieWChangeDSEpochNo =
      (CheckDirBlocksRun env pre initDsComm).2.prevdsblocknum)
    (hsig : (CheckBlockCosignature env Prod.fst env.SerializeVCBlockHeader vcblock
      (CheckDirBlocksRun env pre initDsComm).2.mutable_ds_comm).value = .ret true) :
    CheckDirBlocks env (pre ++ [.vc vcblock]) initDsComm = .ret true ∧
    (CheckDirBlocksRun env (pre ++ [.vc vcblock]) initDsComm).2.prevdsblocknum =
      (CheckDirBlocksRun env pre initDsComm).2.prevdsblocknum ∧
    (CheckDirBlocksRun env (pre ++ [.vc vcblock]) initDsComm).2.mutable_ds_comm =
      env.UpdateDSCommiteeCompositionAfterVC^[vcblock.header.viewChangeCounter]
        (CheckDirBlocksRun env pre initDsComm).2.mutable_ds_comm ∧
    (CheckDirBlocksRun env (pre ++ [.vc vcblock]) initDsComm).2.calls =
      (CheckDirBlocksRun env pre initDsComm).2.calls ++
        (CheckBlockCosignature env Prod.fst env.SerializeVCBlockHeader vcblock
          (CheckDirBlocksRun env pre initDsComm).2.mutable_ds_comm).calls ++
        (List.range vcblock.header.viewChangeCounter).map (fun i =>
          Call.UpdateDSCommiteeCompositionAfterVC
            (env.UpdateDSCommiteeCompositionAfterVC^[i]
              (CheckDirBlocksRun env pre initDsComm).2.mutable_ds_comm)) := by
  unfold CheckDirBlocks CheckDirBlocksRun at *
  rw [walk_append, if_pos hpre]
  simp only [walk, loopBody_eq, vcBranch, hepoch, ne_eq, not_true_eq_false, if_false, hsig,
    vcLoop_fst, vcLoop_snd]
  exact ⟨trivial, trivial, trivial, trivial⟩

theorem CheckDirBlocks_vc_rotations_witness :
    (CheckDirBlocksRun sampleEnv
        ([.ds (sampleDSBlock 1 [true, true, true, false] 70)] ++
          [.vc (sampleVCBlock 1 2 [true, true, true, false] 102)])
        sampleComm).2.calls.filter Call.isMutation =
      [Call.UpdateDSCommiteeComposition [(10, 1), (20, 2), (30, 3), (40, 4)],
       Call.UpdateDSCommiteeCompositionAfterVC [(20, 2), (30, 3), (40, 4), (10, 1)],
       Call.UpdateDSCommiteeCompositionAfterVC [(30, 3), (40, 4), (10, 1), (20, 2)]] ∧
    (CheckDirBlocksRun sampleEnv
        ([.ds (sampleDSBlock 1 [true, true, true, false] 70)] ++
          [.vc (sampleVCBlock 1 2 [true, true, true, false] 102)])
        sampleComm).2.prevdsblocknum = 1 :=
  have h := CheckDirBlocks_vc_rotations sampleEnv
    [.ds (sampleDSBlock 1 [true, true, true, false] 70)]
    (sampleVCBlock 1 2 [true, true, true, false] 102) sampleComm
    (by decide) (by decide) (by decide)
  ⟨(congrArg (List.filter Call.isMutation) h.2.2.2).trans (by decide),
    h.2.1.trans (by decide)⟩

/-! ## Exceptions -/

/-- The bounds-checked read `B2.at(index)` of the selection loop is always in range once the
sizes agree, also when the counters wrap. -/
theorem selectKeys_returns {κ : Type} (getPubKey : κ → PubKey) (B2 : List Bool) :
    ∀ (rest : List κ) (index count : Nat) (keys : List PubKey),
      index + rest.length ≤ B2.length →
      ∃ r, selectKeys getPubKey B2 rest index count keys = .ret r := by
  intro rest
  induction rest with
  | nil =>
    intro index count keys _
    exact ⟨_, rfl⟩
  | cons kv rest ih =>
    intro index count keys hidx
    simp only [List.length_cons] at hidx
    have hlt : index < B2.length := by omega
    have hget : B2[index]? = some B2[index] := List.getElem?_eq_getElem hlt
    have hmod : (index + 1) % UINT32 ≤ index + 1 := Nat.mod_le _ _
    rw [selectKeys, hget]
    cases B2[index] with
    | true => exact ih _ _ _ (by omega)
    | false => exact ih _ _ _ (by omega)

/-- The function `CheckBlockCosignature` always returns a boolean: no exception leaves it. -/
theorem CheckBlockCosignature_returns {κ Header : Type} (env : Env) (getPubKey : κ → PubKey)
    (serializeHeader : Header → Bytes) (block : BlockBase Header) (commKeys : List κ) :
    ∃ v, (CheckBlockCosignature env getPubKey serializeHeader block commKeys).value =
      .ret v := by
  unfold CheckBlockCosignature
  simp only
  split
  · exact ⟨_, rfl⟩
  · rename_i hlen
    have hlen2 : commKeys.length = block.B2.length := by
      by_contra h
      exact hlen h
    obtain ⟨r, hr⟩ := selectKeys_returns getPubKey block.B2 commKeys 0 0 []
      (by omega)
    rw [hr]
    simp only
    split
    · exact ⟨_, rfl⟩
    · split
      · exact ⟨_, rfl⟩
      · split <;> exact ⟨_, rfl⟩

theorem loopBody_no_throw (env : Env) (b : DirBlock) (s : WalkState)
    (hin : ∀ f, b = .fb f → f.m_fallbackblock.header.shardId < f.m_shards.length)
    (e : Exception) : (loopBody env b s).1 ≠ some (.throw e) := by
  rw [loopBody_eq]
  cases b with
  | ds d =>
    obtain ⟨v, hv⟩ := CheckBlockCosignature_returns env Prod.fst env.SerializeDSBlockHeader d
      s.mutable_ds_comm
    simp only [dsBranch, hv]
    split
    · simp
    · cases v <;> simp
  | vc w =>
    obtain ⟨v, hv⟩ := CheckBlockCosignature_returns env Prod.fst env.SerializeVCBlockHeader w
      s.mutable_ds_comm
    simp only [vcBranch, hv]
    split
    · simp
    · cases v <;> simp
  | fb f =>
    have hlt := hin f rfl
    have hget : f.m_shards[f.m_fallbackblock.header.shardId]? =
        some f.m_shards[f.m_fallbackblock.header.shardId] := List.getElem?_eq_getElem hlt
    obtain ⟨v, hv⟩ := CheckBlockCosignature_returns env (fun kv : PubKey × Peer × Nat => kv.1)
      env.SerializeFallbackBlockHeader f.m_fallbackblock
      f.m_shards[f.m_fallbackblock.header.shardId]
    simp only [fbBranch, hget, hv]
    split
    · simp
    · cases v <;> simp

/-- Apart from a fallback block whose shardId is out of range, nothing throws: when every
fallback block of the list names an existing shard, the walk returns a boolean. -/
theorem walk_returns_of_shards_in_range (env : Env) (blocks : List DirBlock) :
    ∀ s : WalkState,
      (∀ f, DirBlock.fb f ∈ blocks → f.m_fallbackblock.header.shardId < f.m_shards.length) →
      ∃ v, (walk env blocks s).1 = .ret v := by
  induction blocks with
  | nil =>
    intro s _
    exact ⟨true, rfl⟩
  | cons b rest ih =>
    intro s hin
    have hb := loopBody_no_throw env b s (fun f hf => hin f (by simp [hf]))
    simp only [walk]
    cases hbody : loopBody env b s with
    | mk o s1 =>
      rw [hbody] at hb
      cases o with
      | none => exact ih s1 (fun f hf => hin f (List.mem_cons_of_mem _ hf))
      | some r =>
        cases r with
        | ret v => exact ⟨v, rfl⟩
        | throw e => exact absurd rfl (hb e)

/-- C12, at the failing input: a fallback block whose target epoch matches the running epoch
(0) and whose shardId (0) is not below the number of shards (0) makes `CheckDirBlocks` throw
`std::out_of_range` out of `shards.at(shard_id)` instead of returning a boolean. -/
theorem CheckDirBlocks_shard_out_of_range_throws :
    (sampleFallback 0 0 [] 91).m_fallbackblock.header.fallbackDSEpochNo = 0 ∧
    (sampleFallback 0 0 [] 91).m_shards.length ≤
      (sampleFallback 0 0 [] 91).m_fallbackblock.header.shardId ∧
    CheckDirBlocks sampleEnv [.fb (sampleFallback 0 0 [] 91)] sampleComm =
      .throw .out_of_range := by
  decide

/-! ## More properties of `CheckBlockCosignature` -/

/-- C17: `CheckBlockCosignature` accepts only an exact quorum. On a committee of fewer than
`2^32` members (the range of the `unsigned int` counters): if it returns true, the number of
set bits of B2 equals `NumForConsensus(len(B2))`; and a bitmap of the length of the committee
with more set bits than the threshold is rejected right after the quorum function is asked,
whatever key aggregation and the signature primitive would answer. -/
theorem cosignature_exact_quorum_only {κ Header : Type} (env : Env) (getPubKey : κ → PubKey)
    (serializeHeader : Header → Bytes) (block : BlockBase Header) (commKeys : List κ)
    (hsz : commKeys.length < UINT32) :
    ((CheckBlockCosignature env getPubKey serializeHeader block commKeys).value = .ret true →
      block.B2.count true = env.NumForConsensus block.B2.length) ∧
    (commKeys.length = block.B2.length →
      env.NumForConsensus block.B2.length < block.B2.count true →
      CheckBlockCosignature env getPubKey serializeHeader block commKeys =
        ⟨.ret false, [.NumForConsensus block.B2.length]⟩) := by
  constructor
  · intro htrue
    have hlen : commKeys.length = block.B2.length := by
      by_contra hne
      simp [CheckBlockCosignature, hne] at htrue
    by_contra hne
    rw [CheckBlockCosignature_eq env getPubKey serializeHeader block commKeys hlen hsz] at htrue
    simp [hne] at htrue
  · intro hlen hmore
    rw [CheckBlockCosignature_eq env getPubKey serializeHeader block commKeys hlen hsz]
    have hne : block.B2.count true ≠ env.NumForConsensus block.B2.length := by omega
    rw [if_pos hne]

theorem cosignature_exact_quorum_only_witness :
    (sampleDSBlock 1 [true, true, true, false] 70).B2.count true =
        sampleEnv.NumForConsensus (sampleDSBlock 1 [true, true, true, false] 70).B2.length ∧
      sampleEnv.Verify
        (signedBytes sampleEnv sampleEnv.SerializeDSBlockHeader
          (sampleDSBlock 1 [true, true, true, true] 110)) 110 100 = true ∧
      CheckBlockCosignature sampleEnv Prod.fst sampleEnv.SerializeDSBlockHeader
        (sampleDSBlock 1 [true, true, true, true] 110) sampleComm =
          ⟨.ret false, [.NumForConsensus 4]⟩ :=
  ⟨(cosignature_exact_quorum_only sampleEnv Prod.fst sampleEnv.SerializeDSBlockHeader
      (sampleDSBlock 1 [true, true, true, false] 70) sampleComm (by decide)).1 (by decide),
    by decide,
    (cosignature_exact_quorum_only sampleEnv Prod.fst sampleEnv.SerializeDSBlockHeader
      (sampleDSBlock 1 [true, true, true, true] 110) sampleComm (by decide)).2
      (by decide) (by decide)⟩

/-! ## More lemmas on `CheckDirBlocks` -/

theorem loopBody_calls_extend (env : Env) (b : DirBlock) (s : WalkState) :
    ∃ more, (loopBody env b s).2.calls = s.calls ++ more := by
  rw [loopBody_eq]
  cases b with
  | ds d =>
    simp only [dsBranch]
    split
    · exact ⟨[], by simp⟩
    · split
      · exact ⟨_, rfl⟩
      · exact ⟨_, rfl⟩
      · exact ⟨_, List.append_assoc _ _ _⟩
  | vc v =>
    simp only [vcBranch]
    split
    · exact ⟨[], by simp⟩
    · split
      · exact ⟨_, rfl⟩
      · exact ⟨_, rfl⟩
      · exact ⟨_, by rw [vcLoop_snd, List.append_assoc]⟩
  | fb f =>
    simp only [fbBranch]
    split
    · exact ⟨[], by simp⟩
    · split
      · exact ⟨[], by simp⟩
      · split
        · exact ⟨_, rfl⟩
        · exact ⟨_, rfl⟩
        · exact ⟨_, List.append_assoc _ _ _⟩

theorem walk_calls_extend (env : Env) (blocks : List DirBlock) :
    ∀ s : WalkState, ∃ more, (walk env blocks s).2.calls = s.calls ++ more := by
  induction blocks with
  | nil =>
    intro s
    exact ⟨[], by simp [walk]⟩
  | cons b rest ih =>
    intro s
    obtain ⟨m1, h1⟩ := loopBody_calls_extend env b s
    simp only [walk]
    cases hbody : loopBody env b s with
    | mk o s1 =>
      rw [hbody] at h1
      simp only at h1
      cases o with
      | some r => exact ⟨m1, h1⟩
      | none =>
        obtain ⟨m2, h2⟩ := ih s1
        exact ⟨m1 ++ m2, by simp only [h2, h1, List.append_assoc]⟩

theorem walk_true_of_append (env : Env) (pre post : List DirBlock) (s : WalkState)
    (h : (walk env (pre ++ post) s).1 = .ret true) :
    (walk env pre s).1 = .ret true ∧
      walk env (pre ++ post) s = walk env post (walk env pre s).2 := by
  rw [walk_append] at h ⊢
  by_cases hp : (walk env pre s).1 = .ret true
  · exact ⟨hp, by rw [if_pos hp]⟩
  · rw [if_neg hp] at h
    exact absurd h hp

theorem specFold_numbers (env : Env) (blocks : List DirBlock) :
    ∀ (c : DSComm) (e : Nat) (st : DSComm × Nat),
      blocks.foldlM (specStep env) (c, e) = some st →
      dsNumbers blocks = (List.range (countDS blocks)).map (fun i => e + 1 + i) ∧
      (∀ i (hi : i < blocks.length),
        carriesEpoch (e + countDS (blocks.take i)) blocks[i] = true) ∧
      st.2 = e + countDS blocks := by
  induction blocks with
  | nil =>
    intro c e st h
    simp only [List.foldlM_nil, pure, Option.some.injEq] at h
    subst h
    simp [dsNumbers, countDS]
  | cons b rest ih =>
    intro c e st h
    simp only [List.foldlM_cons, bind, Option.bind] at h
    cases hstep : specStep env (c, e) b with
    | none => simp [hstep] at h
    | some st1 =>
      simp only [hstep] at h
      cases b with
      | ds d =>
        simp only [specStep] at hstep
        split at hstep
        · rename_i hc
          simp only [Option.some.injEq] at hstep
          subst hstep
          obtain ⟨h1, h2, h3⟩ := ih _ _ st h
          refine ⟨?_, ?_, ?_⟩
          · simp only [dsNumbers, countDS, h1, hc.1, List.range_succ_eq_map, List.map_cons,
              List.map_map, Nat.add_zero, List.cons.injEq, true_and]
            apply List.map_congr_left
            intro i _
            simp only [Function.comp_apply]
            omega
          · intro i hi
            cases i with
            | zero => simp [carriesEpoch, countDS, hc.1]
            | succ i =>
              have := h2 i (by simpa using hi)
              simp only [List.take_succ_cons, countDS, List.getElem_cons_succ]
              rw [show e + (countDS (List.take i rest) + 1) = e + 1 + countDS (List.take i rest)
                by omega]
              exact this
          · simp only [countDS, h3]
            omega
        · simp at hstep
      | vc v =>
        simp only [specStep] at hstep
        split at hstep
        · rename_i hc
          simp only [Option.some.injEq] at hstep
          subst hstep
          obtain ⟨h1, h2, h3⟩ := ih _ _ st h
          refine ⟨?_, ?_, ?_⟩
          · simp only [dsNumbers, countDS, h1]
          · intro i hi
            cases i with
            | zero => simp [carriesEpoch, countDS, hc.1]
            | succ i =>
              have := h2 i (by simpa using hi)
              simp only [List.take_succ_cons, countDS, List.getElem_cons_succ]
              exact this
          · simp only [countDS, h3]
        · simp at hstep
      | fb f =>
        simp only [specStep] at hstep
        split at hstep
        · rename_i hc
          split at hstep
          · split at hstep
            · simp only [Option.some.injEq] at hstep
              subst hstep
              obtain ⟨h1, h2, h3⟩ := ih _ _ st h
              refine ⟨?_, ?_, ?_⟩
              · simp only [dsNumbers, countDS, h1]
              · intro i hi
                cases i with
                | zero => simp [carriesEpoch, countDS, hc]
                | succ i =>
                  have := h2 i (by simpa using hi)
                  simp only [List.take_succ_cons, countDS, List.getElem_cons_succ]
                  exact this
              · simp only [countDS, h3]
            · simp at hstep
          · simp at hstep
        · simp at hstep

/-! ## More properties of `CheckDirBlocks` -/

/-- C11: when the blocks before a fallback block all pass, its target epoch equals the running
epoch and its shardId indexes the shard `shard` of its sharding structure, then the verdict of
`CheckDirBlocks` on that block is the verdict of `CheckBlockCosignature` against `shard`; the
outcome of the loop body does not change when the working DS committee is replaced by any
other; and on success the calls are those of the cosignature check followed by one call of the
fallback-leader update with that shardId, the leader key and leader address of the header, the
working DS committee and the full sharding structure, the working committee becomes what that
call returns, and the running epoch is unchanged. -/
theorem CheckDirBlocks_fallback_branch (env : Env) (pre : List DirBlock)
    (f : FallbackBlockWShardingStructure) (shard : Shard) (initDsComm : DSComm)
    (hpre : CheckDirBlocks env pre initDsComm = .ret true)
    (hepoch : f.m_fallbackblock.header.fallbackDSEpochNo =
      (CheckDirBlocksRun env pre initDsComm).2.prevdsblocknum)
    (hshard : f.m_shards[f.m_fallbackblock.header.shardId]? = some shard) :
    CheckDirBlocks env (pre ++ [.fb f]) initDsComm =
      (CheckBlockCosignature env (fun kv => kv.1) env.SerializeFallbackBlockHeader
        f.m_fallbackblock shard).value ∧
    (∀ comm2 : DSComm,
      (loopBody env (.fb f)
        { (CheckDirBlocksRun env pre initDsComm).2 with mutable_ds_comm := comm2 }).1 =
      (loopBody env (.fb f) (CheckDirBlocksRun env pre initDsComm).2).1) ∧
    ((CheckBlockCosignature env (fun kv => kv.1) env.SerializeFallbackBlockHeader
        f.m_fallbackblock shard).value = .ret true →
      (CheckDirBlocksRun env (pre ++ [.fb f]) initDsComm).2.calls =
        (CheckDirBlocksRun env pre initDsComm).2.calls ++
          (CheckBlockCosignature env (fun kv => kv.1) env.SerializeFallbackBlockHeader
            f.m_fallbackblock shard).calls ++
          [Call.UpdateDSCommitteeAfterFallback f.m_fallbackblock.header.shardId
            f.m_fallbackblock.header.leaderPubKey f.m_fallbackblock.header.leaderNetworkInfo
            (CheckDirBlocksRun env pre initDsComm).2.mutable_ds_comm f.m_shards] ∧
      (CheckDirBlocksRun env (pre ++ [.fb f]) initDsComm).2.mutable_ds_comm =
        env.UpdateDSCommitteeAfterFallback f.m_fallbackblock.header.shardId
          f.m_fallbackblock.header.leaderPubKey f.m_fallbackblock.header.leaderNetworkInfo
          (CheckDirBlocksRun env pre initDsComm).2.mutable_ds_comm f.m_shards ∧
      (CheckDirBlocksRun env (pre ++ [.fb f]) initDsComm).2.prevdsblocknum =
        (CheckDirBlocksRun env pre initDsComm).2.prevdsblocknum) := by
  unfold CheckDirBlocks CheckDirBlocksRun at *
  rw [walk_append, if_pos hpre]
  refine ⟨?_, ?_, ?_⟩
  · simp only [walk, loopBody_eq, fbBranch, hepoch, ne_eq, not_true_eq_false, if_false,
      hshard]
    cases hv : (CheckBlockCosignature env (fun kv => kv.1) env.SerializeFallbackBlockHeader
        f.m_fallbackblock shard).value with
    | throw e => rfl
    | ret v => cases v <;> rfl
  · intro comm2
    simp only [loopBody_eq, fbBranch, hepoch, ne_eq, not_true_eq_false, if_false, hshard]
    cases hv : (CheckBlockCosignature env (fun kv => kv.1) env.SerializeFallbackBlockHeader
        f.m_fallbackblock shard).value with
    | throw e => rfl
    | ret v => cases v <;> rfl
  · intro hv
    simp only [walk, loopBody_eq, fbBranch, hepoch, ne_eq, not_true_eq_false, if_false,
      hshard, hv]
    exact ⟨trivial, trivial, trivial⟩

theorem CheckDirBlocks_fallback_branch_witness :
    CheckDirBlocks sampleEnv ([] ++ [.fb (sampleFallback 0 0 [sampleShard] 91)]) [(99, 9)] =
      .ret true ∧
    (CheckDirBlocksRun sampleEnv ([] ++ [.fb (sampleFallback 0 0 [sampleShard] 91)])
        [(99, 9)]).2.calls.filter Call.isMutation =
      [Call.UpdateDSCommitteeAfterFallback 0 20 2 [(99, 9)] [sampleShard]] :=
  have h := CheckDirBlocks_fallback_branch sampleEnv []
    (sampleFallback 0 0 [sampleShard] 91) sampleShard [(99, 9)] (by decide) (by decide)
    (by decide)
  ⟨h.1.trans (by decide),
    (congrArg (List.filter Call.isMutation) (h.2.2 (by decide)).1).trans (by decide)⟩

/-- C16: on every list (of fewer than `2^64` blocks, the range of the `uint64_t` counter) on
which `CheckDirBlocks` returns true, the DS blocks carry, in order, exactly the numbers
1, 2, ..., k, and every block carries the number that fits the DS blocks before it: a VC block
and a fallback block the count of DS blocks that precede it as target epoch, a DS block that
count plus one; the counter ends at the number of DS blocks. -/
theorem CheckDirBlocks_true_numbering (env : Env) (dirBlocks : List DirBlock)
    (initDsComm : DSComm) (hlen : dirBlocks.length < UINT64)
    (htrue : CheckDirBlocks env dirBlocks initDsComm = .ret true) :
    dsNumbers dirBlocks = (List.range (countDS dirBlocks)).map (fun i => i + 1) ∧
    (∀ i (hi : i < dirBlocks.length),
      carriesEpoch (countDS (dirBlocks.take i)) dirBlocks[i] = true) ∧
    (CheckDirBlocksRun env dirBlocks initDsComm).2.prevdsblocknum = countDS dirBlocks := by
  have h := walk_specFold env dirBlocks (initState initDsComm)
    (by simpa [initState] using hlen)
  simp only [initState] at h
  unfold CheckDirBlocks CheckDirBlocksRun at htrue
  simp only [initState] at htrue
  cases hf : List.foldlM (specStep env) (initDsComm, 0) dirBlocks with
  | none => exact absurd htrue (h.2 hf)
  | some st =>
    obtain ⟨h1, h2, h3⟩ := specFold_numbers env dirBlocks initDsComm 0 st hf
    refine ⟨?_, ?_, ?_⟩
    · rw [h1]
      apply List.map_congr_left
      intro i _
      omega
    · intro i hi
      simpa using h2 i hi
    · unfold CheckDirBlocksRun
      simp only [initState]
      rw [(h.1 st hf).2.2, h3]
      omega

theorem CheckDirBlocks_true_numbering_witness :
    dsNumbers sampleMixed = [1, 2] ∧
    carriesEpoch 1 (.vc (sampleVCBlock 1 2 [true, true, true, false] 102)) = true ∧
    (CheckDirBlocksRun sampleEnv sampleMixed sampleComm).2.prevdsblocknum = 2 :=
  have h := CheckDirBlocks_true_numbering sampleEnv sampleMixed sampleComm (by decide)
    (by decide)
  ⟨h.1.trans (by decide), h.2.1 1 (by decide), h.2.2.trans (by decide)⟩

/-- C18: `CheckDirBlocks` is closed under taking an initial part of the list. When it returns
true on `pre ++ post`, it returns true on `pre` with the same initial committee, and the
collaborator calls of the run on `pre ++ post` are those of the run on `pre` followed by
further calls; the empty list is accepted with no collaborator call. -/
theorem CheckDirBlocks_initial_part (env : Env) (pre post : List DirBlock)
    (initDsComm : DSComm)
    (htrue : CheckDirBlocks env (pre ++ post) initDsComm = .ret true) :
    CheckDirBlocks env pre initDsComm = .ret true ∧
    (∃ more, (CheckDirBlocksRun env (pre ++ post) initDsComm).2.calls =
      (CheckDirBlocksRun env pre initDsComm).2.calls ++ more) ∧
    CheckDirBlocks env [] initDsComm = .ret true ∧
    (CheckDirBlocksRun env [] initDsComm).2.calls = [] := by
  unfold CheckDirBlocks CheckDirBlocksRun at *
  obtain ⟨hp, heq⟩ := walk_true_of_append env pre post (initState initDsComm) htrue
  refine ⟨hp, ?_, rfl, rfl⟩
  rw [heq]
  exact walk_calls_extend env post _

theorem CheckDirBlocks_initial_part_witness :
    CheckDirBlocks sampleEnv (sampleDSBlocks.map DirBlock.ds).dropLast sampleComm =
      .ret true ∧
    (CheckDirBlocksRun sampleEnv (sampleDSBlocks.map DirBlock.ds) sampleComm).2.calls =
      (CheckDirBlocksRun sampleEnv (sampleDSBlocks.map DirBlock.ds).dropLast
        sampleComm).2.calls ++
        [Call.NumForConsensus 4, Call.AggregatePubKeys [30, 40, 10],
          Call.Verify [3, 5, 1, 1, 1, 1] 92 80,
          Call.UpdateDSCommiteeComposition [(30, 3), (40, 4), (10, 1), (20, 2)]] :=
  have h := CheckDirBlocks_initial_part sampleEnv (sampleDSBlocks.map DirBlock.ds).dropLast
    [.ds (sampleDSBlock 3 [true, true, true, false] 92)] sampleComm (by decide)
  ⟨h.1, by decide⟩

/-! ## Lemmas on the transaction checks -/

theorem lookupTail_true_iff (env : TxEnv) (store : AccountStore) (tx : Transaction)
    (fromAddr : Address) :
    (lookupTail env store tx fromAddr).1 = true ↔
      VerifyTransaction env tx = true ∧ store.IsAccountExist fromAddr = true ∧
        tx.amount ≤ store.GetBalance fromAddr := by
  unfold lookupTail
  cases hv : VerifyTransaction env tx <;> cases he : store.IsAccountExist fromAddr <;>
    by_cases hb : store.GetBalance fromAddr < tx.amount <;> (simp [hb]; try omega)

theorem lookupTail_no_apply (env : TxEnv) (store : AccountStore) (tx : Transaction)
    (fromAddr : Address) :
    (lookupTail env store tx fromAddr).2.filter TxCall.isApply = [] := by
  unfold lookupTail
  split
  · rfl
  · split
    · rfl
    · split <;> rfl

theorem lookup_not_idle_eq (env : TxEnv) (m_mediator : Mediator) (store : AccountStore)
    (tx : Transaction) (hl : env.LOOKUP_NODE_MODE = false)
    (hmode : m_mediator.m_mode ≠ Mode.IDLE) :
    CheckCreatedTransactionFromLookup env m_mediator store tx =
      lookupTail env store tx (env.GetAddressFromPublicKey tx.senderPubKey) := by
  simp [CheckCreatedTransactionFromLookup, hl, hmode]

theorem created_eq (env : TxEnv) (m_mediator : Mediator) (store : AccountStore)
    (tx : Transaction) (receipt : TransactionReceipt) (hl : env.LOOKUP_NODE_MODE = false)
    (hex : store.IsAccountExist (env.GetAddressFromPublicKey tx.senderPubKey) = true)
    (hbal : tx.amount ≤ store.GetBalance (env.GetAddressFromPublicKey tx.senderPubKey)) :
    CheckCreatedTransaction env m_mediator store tx receipt =
      ⟨(store.UpdateAccountsTemp m_mediator.m_currentEpochNum m_mediator.numShards
          (m_mediator.m_mode != Mode.IDLE) tx receipt).1,
        (store.UpdateAccountsTemp m_mediator.m_currentEpochNum m_mediator.numShards
          (m_mediator.m_mode != Mode.IDLE) tx receipt).2,
        [.IsAccountExist (env.GetAddressFromPublicKey tx.senderPubKey),
          .GetBalance (env.GetAddressFromPublicKey tx.senderPubKey),
          .UpdateAccountsTemp m_mediator.m_currentEpochNum m_mediator.numShards
            (m_mediator.m_mode != Mode.IDLE) tx]⟩ := by
  have hnb : ¬ store.GetBalance (env.GetAddressFromPublicKey tx.senderPubKey) < tx.amount := by
    omega
  simp [CheckCreatedTransaction, hl, hex, hnb]

/-! ## Properties of the transaction checks -/

/-- C13, as stated, fails: in lookup-node mode, with directory-service mode idle and the shard
of the sender (2 of 3) different from the shard id of the node (1),
`CheckCreatedTransactionFromLookup` returns true. -/
theorem lookup_mode_accepts_foreign_shard :
    (sampleMediator 1 Mode.IDLE).m_mode = Mode.IDLE ∧
    (sampleTxEnv true).GetShardIndex
      ((sampleTxEnv true).GetAddressFromPublicKey (sampleTx 5 50 62).senderPubKey)
      (sampleMediator 1 Mode.IDLE).numShards ≠ (sampleMediator 1 Mode.IDLE).shardId ∧
    (CheckCreatedTransactionFromLookup (sampleTxEnv true) (sampleMediator 1 Mode.IDLE)
      sampleStore (sampleTx 5 50 62)).1 = true := by
  decide

/-- C13, amended: outside lookup-node mode, for every transaction and node state in which
directory-service mode is idle and the shard index of the sender address differs from the
shard id of the node, `CheckCreatedTransactionFromLookup` returns false, before any signature
or account check. -/
theorem lookup_foreign_shard_rejected (env : TxEnv) (m_mediator : Mediator)
    (store : AccountStore) (tx : Transaction) (hl : env.LOOKUP_NODE_MODE = false)
    (hidle : m_mediator.m_mode = Mode.IDLE)
    (hshard : env.GetShardIndex (env.GetAddressFromPublicKey tx.senderPubKey)
      m_mediator.numShards ≠ m_mediator.shardId) :
    CheckCreatedTransactionFromLookup env m_mediator store tx = (false, []) := by
  simp [CheckCreatedTransactionFromLookup, hl, hidle, hshard]

theorem lookup_foreign_shard_rejected_witness :
    CheckCreatedTransactionFromLookup (sampleTxEnv false) (sampleMediator 1 Mode.IDLE)
      sampleStore (sampleTx 5 50 62) = (false, []) :=
  lookup_foreign_shard_rejected (sampleTxEnv false) (sampleMediator 1 Mode.IDLE) sampleStore
    (sampleTx 5 50 62) (by decide) (by decide) (by decide)

/-- C14: outside lookup-node mode, `CheckCreatedTransactionFromLookup` returns true exactly
when: directory-service mode is not idle, or the shard index of the sender equals the shard id
of the node and, when the transaction has data and a recipient other than the null address,
the shard index of the recipient equals that of the sender; the signature verifies; the sender
account exists; and the amount is at most the balance. It makes no call of the temporary apply
of the account store. -/
theorem lookup_true_iff (env : TxEnv) (m_mediator : Mediator) (store : AccountStore)
    (tx : Transaction) (hl : env.LOOKUP_NODE_MODE = false) :
    ((CheckCreatedTransactionFromLookup env m_mediator store tx).1 = true ↔
      (m_mediator.m_mode ≠ Mode.IDLE ∨
        (env.GetShardIndex (env.GetAddressFromPublicKey tx.senderPubKey)
            m_mediator.numShards = m_mediator.shardId ∧
          (tx.data.length > 0 ∧ tx.toAddr ≠ env.NullAddress →
            env.GetShardIndex tx.toAddr m_mediator.numShards =
              env.GetShardIndex (env.GetAddressFromPublicKey tx.senderPubKey)
                m_mediator.numShards))) ∧
      VerifyTransaction env tx = true ∧
      store.IsAccountExist (env.GetAddressFromPublicKey tx.senderPubKey) = true ∧
      tx.amount ≤ store.GetBalance (env.GetAddressFromPublicKey tx.senderPubKey)) ∧
    (CheckCreatedTransactionFromLookup env m_mediator store tx).2.filter TxCall.isApply =
      [] := by
  have ht := lookupTail_true_iff env store tx (env.GetAddressFromPublicKey tx.senderPubKey)
  have hn := lookupTail_no_apply env store tx (env.GetAddressFromPublicKey tx.senderPubKey)
  unfold CheckCreatedTransactionFromLookup
  simp only [hl, Bool.false_eq_true, if_false]
  by_cases hmode : m_mediator.m_mode = Mode.IDLE
  · simp only [hmode, if_true, ne_eq, not_true_eq_false, false_or]
    by_cases hs : env.GetShardIndex (env.GetAddressFromPublicKey tx.senderPubKey)
        m_mediator.numShards = m_mediator.shardId
    · simp only [hs, not_true_eq_false, if_false, true_and]
      by_cases hd : tx.data.length > 0 ∧ tx.toAddr ≠ env.NullAddress
      · simp only [hd, and_self, if_true, true_implies]
        by_cases hto : env.GetShardIndex tx.toAddr m_mediator.numShards = m_mediator.shardId
        · simpa [hto] using And.intro ht hn
        · simp [hto]
      · simp only [hd, if_false, false_implies, true_and]
        exact ⟨ht, hn⟩
    · simp [hs]
  · simp only [hmode, if_false, ne_eq, not_false_eq_true, true_or, true_and]
    exact ⟨ht, hn⟩

theorem lookup_true_iff_witness :
    (CheckCreatedTransactionFromLookup (sampleTxEnv false) (sampleMediator 2 Mode.IDLE)
      sampleStore (sampleTx 5 50 62)).1 = true ∧
    (CheckCreatedTransactionFromLookup (sampleTxEnv false) (sampleMediator 2 Mode.IDLE)
      sampleStore (sampleTx 5 50 62)).2.filter TxCall.isApply = [] :=
  ⟨(lookup_true_iff (sampleTxEnv false) (sampleMediator 2 Mode.IDLE) sampleStore
      (sampleTx 5 50 62) (by decide)).1.2 (by decide),
    (lookup_true_iff (sampleTxEnv false) (sampleMediator 2 Mode.IDLE) sampleStore
      (sampleTx 5 50 62) (by decide)).2⟩

/-- C15: `CheckCreatedTransaction` in lookup-node mode returns true for every transaction,
leaves the receipt as it was and makes no call of the account store; outside lookup-node mode
it returns false when the sender account does not exist, returns false when the balance is
below the amount, in both cases without the temporary apply, and otherwise returns the result
and the receipt of the temporary apply, called once with the current epoch, the shard count,
the flag `mode != IDLE` and the transaction. -/
theorem created_cases (env : TxEnv) (m_mediator : Mediator) (store : AccountStore)
    (tx : Transaction) (receipt : TransactionReceipt) :
    (env.LOOKUP_NODE_MODE = true →
      CheckCreatedTransaction env m_mediator store tx receipt = ⟨true, receipt, []⟩) ∧
    (env.LOOKUP_NODE_MODE = false →
      store.IsAccountExist (env.GetAddressFromPublicKey tx.senderPubKey) = false →
      CheckCreatedTransaction env m_mediator store tx receipt =
        ⟨false, receipt, [.IsAccountExist (env.GetAddressFromPublicKey tx.senderPubKey)]⟩) ∧
    (env.LOOKUP_NODE_MODE = false →
      store.IsAccountExist (env.GetAddressFromPublicKey tx.senderPubKey) = true →
      store.GetBalance (env.GetAddressFromPublicKey tx.senderPubKey) < tx.amount →
      CheckCreatedTransaction env m_mediator store tx receipt =
        ⟨false, receipt, [.IsAccountExist (env.GetAddressFromPublicKey tx.senderPubKey),
          .GetBalance (env.GetAddressFromPublicKey tx.senderPubKey)]⟩) ∧
    (env.LOOKUP_NODE_MODE = false →
      store.IsAccountExist (env.GetAddressFromPublicKey tx.senderPubKey) = true →
      tx.amount ≤ store.GetBalance (env.GetAddressFromPublicKey tx.senderPubKey) →
      CheckCreatedTransaction env m_mediator store tx receipt =
        ⟨(store.UpdateAccountsTemp m_mediator.m_currentEpochNum m_mediator.numShards
            (m_mediator.m_mode != Mode.IDLE) tx receipt).1,
          (store.UpdateAccountsTemp m_mediator.m_currentEpochNum m_mediator.numShards
            (m_mediator.m_mode != Mode.IDLE) tx receipt).2,
          [.IsAccountExist (env.GetAddressFromPublicKey tx.senderPubKey),
            .GetBalance (env.GetAddressFromPublicKey tx.senderPubKey),
            .UpdateAccountsTemp m_mediator.m_currentEpochNum m_mediator.numShards
              (m_mediator.m_mode != Mode.IDLE) tx]⟩) := by
  refine ⟨?_, ?_, ?_, ?_⟩
  · intro hl
    simp [CheckCreatedTransaction, hl]
  · intro hl hex
    simp [CheckCreatedTransaction, hl, hex]
  · intro hl hex hb
    simp [CheckCreatedTransaction, hl, hex, hb]
  · intro hl hex hb
    exact created_eq env m_mediator store tx receipt hl hex hb

theorem created_cases_witness :
    CheckCreatedTransaction (sampleTxEnv true) (sampleMediator 1 Mode.IDLE) sampleStore
      (sampleTx 5 51 63) 0 = ⟨true, 0, []⟩ ∧
    CheckCreatedTransaction (sampleTxEnv false) (sampleMediator 1 Mode.IDLE) sampleStore
      (sampleTx 5 51 63) 0 = ⟨false, 0, [.IsAccountExist 1007, .GetBalance 1007]⟩ ∧
    CheckCreatedTransaction (sampleTxEnv false) (sampleMediator 1 Mode.PRIMARY_DS) sampleStore
      (sampleTx 5 50 62) 0 =
        ⟨true, 59, [.IsAccountExist 1007, .GetBalance 1007,
          .UpdateAccountsTemp 9 3 true (sampleTx 5 50 62)]⟩ :=
  ⟨(created_cases (sampleTxEnv true) (sampleMediator 1 Mode.IDLE) sampleStore
      (sampleTx 5 51 63) 0).1 (by decide),
    (created_cases (sampleTxEnv false) (sampleMediator 1 Mode.IDLE) sampleStore
      (sampleTx 5 51 63) 0).2.2.1 (by decide) (by decide) (by decide),
    (created_cases (sampleTxEnv false) (sampleMediator 1 Mode.PRIMARY_DS) sampleStore
      (sampleTx 5 50 62) 0).2.2.2 (by decide) (by decide) (by decide)⟩

/-- C19, as stated, fails: outside lookup-node mode and with directory-service mode not idle,
two transactions with the same signature, sender, amount and account state that differ only in
the recipient address get different answers, because the recipient is among the core fields
the signature is checked over. -/
theorem lookup_not_idle_depends_on_recipient :
    (sampleTx 5 50 62).signature = (sampleTx 6 50 62).signature ∧
    (sampleTx 5 50 62).senderPubKey = (sampleTx 6 50 62).senderPubKey ∧
    (sampleTx 5 50 62).amount = (sampleTx 6 50 62).amount ∧
    (sampleTx 5 50 62).data = (sampleTx 6 50 62).data ∧
    (sampleMediator 1 Mode.PRIMARY_DS).m_mode ≠ Mode.IDLE ∧
    (CheckCreatedTransactionFromLookup (sampleTxEnv false) (sampleMediator 1 Mode.PRIMARY_DS)
      sampleStore (sampleTx 5 50 62)).1 = true ∧
    (CheckCreatedTransactionFromLookup (sampleTxEnv false) (sampleMediator 1 Mode.PRIMARY_DS)
      sampleStore (sampleTx 6 50 62)).1 = false := by
  decide

/-- C19, amended: outside lookup-node mode and with directory-service mode not idle, the
result of `CheckCreatedTransactionFromLookup` is true exactly when the signature verifies,
the sender account exists and the amount is at most the balance; so two runs against the same
account state, on transactions of the same sender and amount whose signature checks give the
same answer, return the same boolean, whatever the shard ids and shard counts of the two nodes
and the recipient addresses and data of the two transactions. -/
theorem lookup_not_idle_independent (env : TxEnv) (m1 m2 : Mediator) (store : AccountStore)
    (tx1 tx2 : Transaction) (hl : env.LOOKUP_NODE_MODE = false)
    (h1 : m1.m_mode ≠ Mode.IDLE) (h2 : m2.m_mode ≠ Mode.IDLE)
    (hsender : tx1.senderPubKey = tx2.senderPubKey) (hamount : tx1.amount = tx2.amount)
    (hsig : VerifyTransaction env tx1 = VerifyTransaction env tx2) :
    (CheckCreatedTransactionFromLookup env m1 store tx1).1 =
      (CheckCreatedTransactionFromLookup env m2 store tx2).1 ∧
    ((CheckCreatedTransactionFromLookup env m1 store tx1).1 = true ↔
      VerifyTransaction env tx1 = true ∧
      store.IsAccountExist (env.GetAddressFromPublicKey tx1.senderPubKey) = true ∧
      tx1.amount ≤ store.GetBalance (env.GetAddressFromPublicKey tx1.senderPubKey)) := by
  rw [lookup_not_idle_eq env m1 store tx1 hl h1, lookup_not_idle_eq env m2 store tx2 hl h2]
  have ht1 := lookupTail_true_iff env store tx1 (env.GetAddressFromPublicKey tx1.senderPubKey)
  have ht2 := lookupTail_true_iff env store tx2 (env.GetAddressFromPublicKey tx1.senderPubKey)
  refine ⟨?_, ht1⟩
  rw [← hamount, ← hsig] at ht2
  rw [← hsender, Bool.eq_iff_iff, ht1, ht2]

theorem lookup_not_idle_independent_witness :
    (CheckCreatedTransactionFromLookup (sampleTxEnv false) (sampleMediator 1 Mode.PRIMARY_DS)
        sampleStore (sampleTx 5 50 62)).1 =
      (CheckCreatedTransactionFromLookup (sampleTxEnv false) (sampleMediator 2 Mode.BACKUP_DS)
        sampleStore (sampleTx 6 50 63)).1 ∧
    (CheckCreatedTransactionFromLookup (sampleTxEnv false) (sampleMediator 1 Mode.PRIMARY_DS)
        sampleStore (sampleTx 5 50 62)).1 = true :=
  have h := lookup_not_idle_independent (sampleTxEnv false) (sampleMediator 1 Mode.PRIMARY_DS)
    (sampleMediator 2 Mode.BACKUP_DS) sampleStore (sampleTx 5 50 62) (sampleTx 6 50 63)
    (by decide) (by decide) (by decide) (by decide) (by decide) (by decide)
  ⟨h.1, h.2.2 (by decide)⟩

/-- C20: outside lookup-node mode and against the same account state, when
`CheckCreatedTransactionFromLookup` returns true on a transaction, the sender exists and the
amount is at most the balance, so `CheckCreatedTransaction` passes both of its rejection
checks and returns the result and the receipt of the temporary apply; and whenever
`CheckCreatedTransaction` ends without the temporary apply,
`CheckCreatedTransactionFromLookup` returns false. -/
theorem lookup_accept_implies_created_applies (env : TxEnv) (m_mediator : Mediator)
    (store : AccountStore) (tx : Transaction) (receipt : TransactionReceipt)
    (hl : env.LOOKUP_NODE_MODE = false) :
    ((CheckCreatedTransactionFromLookup env m_mediator store tx).1 = true →
      store.IsAccountExist (env.GetAddressFromPublicKey tx.senderPubKey) = true ∧
      tx.amount ≤ store.GetBalance (env.GetAddressFromPublicKey tx.senderPubKey) ∧
      CheckCreatedTransaction env m_mediator store tx receipt =
        ⟨(store.UpdateAccountsTemp m_mediator.m_currentEpochNum m_mediator.numShards
            (m_mediator.m_mode != Mode.IDLE) tx receipt).1,
          (store.UpdateAccountsTemp m_mediator.m_currentEpochNum m_mediator.numShards
            (m_mediator.m_mode != Mode.IDLE) tx receipt).2,
          [.IsAccountExist (env.GetAddressFromPublicKey tx.senderPubKey),
            .GetBalance (env.GetAddressFromPublicKey tx.senderPubKey),
            .UpdateAccountsTemp m_mediator.m_currentEpochNum m_mediator.numShards
              (m_mediator.m_mode != Mode.IDLE) tx]⟩) ∧
    ((CheckCreatedTransaction env m_mediator store tx receipt).calls.filter TxCall.isApply =
        [] →
      (CheckCreatedTransactionFromLookup env m_mediator store tx).1 = false) := by
  have key : (CheckCreatedTransactionFromLookup env m_mediator store tx).1 = true →
      store.IsAccountExist (env.GetAddressFromPublicKey tx.senderPubKey) = true ∧
      tx.amount ≤ store.GetBalance (env.GetAddressFromPublicKey tx.senderPubKey) := by
    intro h
    have ht := lookupTail_true_iff env store tx
      (env.GetAddressFromPublicKey tx.senderPubKey)
    unfold CheckCreatedTransactionFromLookup at h
    simp only [hl, Bool.false_eq_true, if_false] at h
    split at h
    · split at h
      · simp at h
      · split at h
        · split at h
          · simp at h
          · exact (ht.1 h).2
        · exact (ht.1 h).2
    · exact (ht.1 h).2
  constructor
  · intro h
    obtain ⟨hex, hbal⟩ := key h
    exact ⟨hex, hbal, created_eq env m_mediator store tx receipt hl hex hbal⟩
  · intro hno
    by_contra hne
    have htrue : (CheckCreatedTransactionFromLookup env m_mediator store tx).1 = true := by
      simpa using hne
    obtain ⟨hex, hbal⟩ := key htrue
    rw [created_eq env m_mediator store tx receipt hl hex hbal] at hno
    simp [TxCall.isApply] at hno

theorem lookup_accept_implies_created_applies_witness :
    CheckCreatedTransaction (sampleTxEnv false) (sampleMediator 2 Mode.IDLE) sampleStore
        (sampleTx 5 50 62) 0 =
      ⟨true, 59, [.IsAccountExist 1007, .GetBalance 1007,
        .UpdateAccountsTemp 9 3 false (sampleTx 5 50 62)]⟩ ∧
    (CheckCreatedTransactionFromLookup (sampleTxEnv false) (sampleMediator 2 Mode.IDLE)
      sampleStore (sampleTx 5 51 63)).1 = false :=
  ⟨((lookup_accept_implies_created_applies (sampleTxEnv false) (sampleMediator 2 Mode.IDLE)
      sampleStore (sampleTx 5 50 62) 0 (by decide)).1 (by decide)).2.2.trans (by decide),
    (lookup_accept_implies_created_applies (sampleTxEnv false) (sampleMediator 2 Mode.IDLE)
      sampleStore (sampleTx 5 51 63) 0 (by decide)).2 (by decide)⟩

end Zilliqa
